import Mathlib

/-!
# Verification of `src/metrics.c`

A shallow embedding of the metric functions of `metrics.c` and theorems about them.

Modelling conventions.

* `unsigned long long` values are natural numbers; every addition, subtraction and
  multiplication the source performs on them is reduced modulo `2 ^ 64` explicitly.
* `double` values are rational numbers and the arithmetic on them is exact: the rounding of
  IEEE binary64 is not modelled.
* A text file is the list of buffers that successive `fgets` calls return (each buffer is a
  list of characters, its newline included); a file that cannot be opened is `none`.
* `sscanf` / `fscanf` are modelled by an interpreter (`sscanf`) over the list of directives of
  the format string; it returns the count the C function returns (`-1` for `EOF`) together
  with the converted values in order.  Numeric conversions follow `strtoull` / `strtoll`.
* Static variables of a function are passed in and returned explicitly.
* `metrics.h` is not part of the sources: the constants it defines are either parameters or
  modelled from the specification, as documented at each definition.
-/

namespace Metrics

/-! ## Characters and numbers -/

/-- The modulus of `unsigned long long` arithmetic. -/
def U64 : Nat := 2 ^ 64

/-- Unsigned 64-bit addition. -/
def add64 (a b : Nat) : Nat := (a + b) % U64

/-- Unsigned 64-bit subtraction (wraps around when `b > a`). -/
def sub64 (a b : Nat) : Nat := (a % U64 + (U64 - b % U64)) % U64

/-- Unsigned 64-bit multiplication. -/
def mul64 (a b : Nat) : Nat := (a * b) % U64

/-- The C function `isspace` in the "C" locale: space, `\t`, `\n`, `\v`, `\f`, `\r`. -/
def isspace (c : Char) : Bool :=
  c.toNat = 32 || (9 ≤ c.toNat && c.toNat ≤ 13)

/-- The C function `isdigit`. -/
def isdigit (c : Char) : Bool :=
  48 ≤ c.toNat && c.toNat ≤ 57

/-- Value of a run of decimal digits, most significant first. -/
def digitsVal (ds : List Char) : Nat :=
  ds.foldl (fun acc c => acc * 10 + (c.toNat - 48)) 0

/-- Result of `strtoull` on a sign and a non-empty digit run: saturates at `ULLONG_MAX`, and a
minus sign negates modulo `2 ^ 64`. -/
def strtoull (neg : Bool) (ds : List Char) : Nat :=
  let n := digitsVal ds
  if U64 ≤ n then U64 - 1 else if neg then (U64 - n) % U64 else n

/-- Result of `strtoll` on a sign and a non-empty digit run: saturates at `LLONG_MIN` and
`LLONG_MAX`. -/
def strtoll (neg : Bool) (ds : List Char) : Int :=
  let n := digitsVal ds
  if neg then (if 2 ^ 63 < n then -(2 ^ 63 : Int) else -(n : Int))
  else (if 2 ^ 63 ≤ n then (2 ^ 63 : Int) - 1 else (n : Int))

/-! ## The `scanf` family -/

/-- The directives that occur in the format strings of `metrics.c`. -/
inductive Dir where
  /-- White space in the format: skips any amount of input white space. -/
  | ws
  /-- An ordinary character: must match the next input character. -/
  | lit (c : Char)
  /-- The conversion `%llu`. -/
  | llu
  /-- The conversion `%lld`. -/
  | lld
  /-- The suppressed conversion `%*d`. -/
  | skipd
  /-- The suppressed conversion `%*s`. -/
  | skips
  /-- The conversion `%c`. -/
  | chr
  /-- The conversion `%63[^:]`. -/
  | set63
  deriving DecidableEq, Repr

/-- A converted value stored through a pointer argument. -/
inductive Val where
  | num (n : Nat)
  | int (i : Int)
  | chr (c : Char)
  | str (s : List Char)
  deriving DecidableEq, Repr

/-- Outcome of one directive. -/
inductive Step where
  /-- The directive matched; `v` is the value to store, if the directive stores one. -/
  | ok (v : Option Val) (rest : List Char)
  /-- The input ended before the directive could match. -/
  | inputFail
  /-- The next input character does not fit the directive. -/
  | matchFail
  deriving DecidableEq, Repr

/-- Skip leading white space. -/
def skipWs : List Char → List Char
  | [] => []
  | c :: cs => if isspace c then skipWs cs else c :: cs

/-- Split off the longest leading run of decimal digits. -/
def spanDigits : List Char → List Char × List Char
  | [] => ([], [])
  | c :: cs =>
    if isdigit c then ((spanDigits cs).1.cons c, (spanDigits cs).2) else ([], c :: cs)

/-- Split off the longest leading run of non-white-space characters. -/
def spanNonWs : List Char → List Char × List Char
  | [] => ([], [])
  | c :: cs =>
    if isspace c then ([], c :: cs) else ((spanNonWs cs).1.cons c, (spanNonWs cs).2)

/-- Split off the longest leading run, of at most `n` characters, that are not `:`. -/
def spanNotColon : Nat → List Char → List Char × List Char
  | 0, cs => ([], cs)
  | _ + 1, [] => ([], [])
  | n + 1, c :: cs =>
    if c = ':' then ([], c :: cs)
    else ((spanNotColon n cs).1.cons c, (spanNotColon n cs).2)

/-- Outcome of scanning an optionally signed decimal number. -/
inductive NumScan where
  /-- The sign, the non-empty digit run and the remaining input. -/
  | ok (neg : Bool) (ds rest : List Char)
  /-- The input ended before the number. -/
  | inputFail
  /-- No digit where one is required. -/
  | matchFail
  deriving DecidableEq, Repr

/-- An optionally signed decimal number at the head of the input, after white space. -/
def scanNumber (inp : List Char) : NumScan :=
  match skipWs inp with
  | [] => .inputFail
  | c :: cs =>
    if (spanDigits (if c = '-' ∨ c = '+' then cs else c :: cs)).1 = [] then .matchFail
    else .ok (decide (c = '-')) (spanDigits (if c = '-' ∨ c = '+' then cs else c :: cs)).1
      (spanDigits (if c = '-' ∨ c = '+' then cs else c :: cs)).2

/-- Run one directive on the input. -/
def step : Dir → List Char → Step
  | .ws, inp => .ok none (skipWs inp)
  | .lit _, [] => .inputFail
  | .lit c, d :: rest => if d = c then .ok none rest else .matchFail
  | .llu, inp =>
    match scanNumber inp with
    | .ok neg ds rest => .ok (some (.num (strtoull neg ds))) rest
    | .inputFail => .inputFail
    | .matchFail => .matchFail
  | .lld, inp =>
    match scanNumber inp with
    | .ok neg ds rest => .ok (some (.int (strtoll neg ds))) rest
    | .inputFail => .inputFail
    | .matchFail => .matchFail
  | .skipd, inp =>
    match scanNumber inp with
    | .ok _ _ rest => .ok none rest
    | .inputFail => .inputFail
    | .matchFail => .matchFail
  | .skips, inp =>
    match skipWs inp with
    | [] => .inputFail
    | c :: cs => .ok none (spanNonWs (c :: cs)).2
  | .chr, [] => .inputFail
  | .chr, c :: rest => .ok (some (.chr c)) rest
  | .set63, [] => .inputFail
  | .set63, c :: cs =>
    if (spanNotColon 63 (c :: cs)).1 = [] then .matchFail
    else .ok (some (.str (spanNotColon 63 (c :: cs)).1)) (spanNotColon 63 (c :: cs)).2

/-- Run the directives in order; `acc` holds the values converted so far. The count is the
number of stored values, or `-1` (`EOF`) when the input ends before the first one. -/
def scanAux : List Dir → List Char → List Val → Int × List Val
  | [], _, acc => (acc.length, acc)
  | d :: ds, inp, acc =>
    match step d inp with
    | .ok none rest => scanAux ds rest acc
    | .ok (some v) rest => scanAux ds rest (acc ++ [v])
    | .inputFail => (if acc = [] then -1 else acc.length, acc)
    | .matchFail => (acc.length, acc)

/-- The function `sscanf(input, fmt, ...)`: return value and the values stored, in order. -/
def sscanf (fmt : List Dir) (input : List Char) : Int × List Val :=
  scanAux fmt input []

/-- The `unsigned long long` variable behind the `i`-th pointer argument after the call: the
converted value if the `i`-th conversion took place, else its old content. -/
def argNum (vals : List Val) (i : Nat) (old : Nat) : Nat :=
  match vals.get? i with
  | some (.num n) => n
  | _ => old

/-- The character buffer behind the `i`-th pointer argument after the call. -/
def argStr (vals : List Val) (i : Nat) (old : List Char) : List Char :=
  match vals.get? i with
  | some (.str s) => s
  | _ => old

/-- The `long long` variable behind the `i`-th pointer argument after the call. -/
def argInt (vals : List Val) (i : Nat) (old : Int) : Int :=
  match vals.get? i with
  | some (.int v) => v
  | _ => old

/-- The `char` variable behind the `i`-th pointer argument after the call. -/
def argChr (vals : List Val) (i : Nat) (old : Char) : Char :=
  match vals.get? i with
  | some (.chr c) => c
  | _ => old

/-- The literal directives of an ordinary-character run of a format string. -/
def lits (s : String) : List Dir := s.data.map Dir.lit

/-! ## Constants of `metrics.h` -/

/-- Modelled from the spec: `metrics.h` is absent; the design notes of the specification give
the error sentinel as "-1 means error". -/
def RETURN_ERROR : Int := -1

/-- Modelled from the spec: `metrics.h` is absent; the specification computes every usage
percentage as `... * 100`. -/
def PERCENTAGE : Rat := 100

/-! ## Memory usage -/

/-- Format string `"MemTotal: %llu kB"`. -/
def fmtMemTotal : List Dir := lits "MemTotal:" ++ [.ws, .llu, .ws, .lit 'k', .lit 'B']

/-- Format string `"MemAvailable: %llu kB"`. -/
def fmtMemAvailable : List Dir := lits "MemAvailable:" ++ [.ws, .llu, .ws, .lit 'k', .lit 'B']

/-- The scanning loop of `get_memory_usage`: the state is `(total_mem_kb, available_mem_kb)`.
A `MemTotal` buffer updates the total and continues, a `MemAvailable` buffer updates the
available amount and leaves the loop. -/
def scanMeminfo : List (List Char) → Nat × Nat → Nat × Nat
  | [], st => st
  | buffer :: rest, st =>
    if (sscanf fmtMemTotal buffer).1 = 1 then
      scanMeminfo rest (argNum (sscanf fmtMemTotal buffer).2 0 st.1, st.2)
    else if (sscanf fmtMemAvailable buffer).1 = 1 then
      (st.1, argNum (sscanf fmtMemAvailable buffer).2 0 st.2)
    else scanMeminfo rest st

/-- The function `get_memory_usage`; `meminfo` is the content of `/proc/meminfo`. -/
def get_memory_usage (meminfo : Option (List (List Char))) : Rat :=
  match meminfo with
  | none => RETURN_ERROR
  | some lines =>
    let total_mem_kb := (scanMeminfo lines (0, 0)).1
    let available_mem_kb := (scanMeminfo lines (0, 0)).2
    if total_mem_kb = 0 ∨ available_mem_kb = 0 ∨ available_mem_kb > total_mem_kb then
      RETURN_ERROR
    else
      let used_mem_kb : Rat := ((sub64 total_mem_kb available_mem_kb : Nat) : Rat)
      (used_mem_kb / (total_mem_kb : Rat)) * 100

/-! ## CPU usage -/

/-- The eight cumulative counters of the aggregate `cpu` line of `/proc/stat`. -/
structure CpuTimes where
  user : Nat
  nice : Nat
  system : Nat
  idle : Nat
  iowait : Nat
  irq : Nat
  softirq : Nat
  steal : Nat
  deriving DecidableEq, Repr

/-- Format string `"cpu  %llu %llu %llu %llu %llu %llu %llu %llu"`. -/
def fmtCpu : List Dir :=
  lits "cpu" ++ [.ws, .llu, .ws, .llu, .ws, .llu, .ws, .llu, .ws, .llu, .ws, .llu, .ws, .llu,
    .ws, .llu]

/-- The `sscanf` call of `get_cpu_usage`: its return value and the eight local variables
(a variable whose conversion did not take place is shown as `0`; the source does not read it
in that case). -/
def sscanf_cpu (buffer : List Char) : Int × CpuTimes :=
  let r := sscanf fmtCpu buffer
  (r.1, ⟨argNum r.2 0 0, argNum r.2 1 0, argNum r.2 2 0, argNum r.2 3 0, argNum r.2 4 0,
    argNum r.2 5 0, argNum r.2 6 0, argNum r.2 7 0⟩)

/-- The sum `idle + iowait` of the source. -/
def idle_total (c : CpuTimes) : Nat := add64 c.idle c.iowait

/-- The sum `user + nice + system + irq + softirq + steal` of the source. -/
def non_idle (c : CpuTimes) : Nat :=
  add64 (add64 (add64 (add64 (add64 c.user c.nice) c.system) c.irq) c.softirq) c.steal

/-- The sum `idle_total + non_idle` of the source. -/
def total (c : CpuTimes) : Nat := add64 (idle_total c) (non_idle c)

/-- The difference `total - prev_total` of the source. -/
def totald (prev cur : CpuTimes) : Nat := sub64 (total cur) (total prev)

/-- The difference `idle_total - prev_idle_total` of the source. -/
def idled (prev cur : CpuTimes) : Nat := sub64 (idle_total cur) (idle_total prev)

/-- The function `get_cpu_usage`. `prev` is the content of the static `prev_*` variables
before the call, `stat` the content of `/proc/stat`; the result is the returned value and the
content of the static variables after the call. -/
def get_cpu_usage (prev : CpuTimes) (stat : Option (List (List Char))) : Rat × CpuTimes :=
  match stat with
  | none => (RETURN_ERROR, prev)
  | some [] => (RETURN_ERROR, prev)
  | some (buffer :: _) =>
    if (sscanf_cpu buffer).1 < 8 then (RETURN_ERROR, prev)
    else
      let cur := (sscanf_cpu buffer).2
      if totald prev cur = 0 then (RETURN_ERROR, prev)
      else
        let cpu_usage_percent : Rat :=
          (((sub64 (totald prev cur) (idled prev cur) : Nat) : Rat) /
            ((totald prev cur : Nat) : Rat)) * 100
        (cpu_usage_percent, cur)

/-! ## Disk usage -/

/-- The fields of `struct statvfs` that `get_disk_usage` reads. -/
structure StatVfs where
  f_blocks : Nat
  f_bavail : Nat
  f_frsize : Nat
  deriving DecidableEq, Repr

/-- The product `f_blocks * f_frsize` of the source. -/
def disk_total (s : StatVfs) : Nat := mul64 s.f_blocks s.f_frsize

/-- The product `f_bavail * f_frsize` of the source. -/
def disk_available (s : StatVfs) : Nat := mul64 s.f_bavail s.f_frsize

/-- The function `get_disk_usage`; `none` stands for a failing `statvfs` call. -/
def get_disk_usage (stat : Option StatVfs) : Rat :=
  match stat with
  | none => RETURN_ERROR
  | some s =>
    let used := sub64 (disk_total s) (disk_available s)
    if disk_total s = 0 then RETURN_ERROR
    else ((used : Rat) / (disk_total s : Rat)) * PERCENTAGE

/-! ## Single-value readers -/

/-- The function `read_value`; `file` is the content of the file at `path` (`none` when it
cannot be opened). `UNIT_CONVERSION` is a constant of the absent `metrics.h`, taken as a
parameter (a floating-point constant, so that the division is a `double` division). -/
def read_value (UNIT_CONVERSION : Rat) (file : Option (List Char)) : Rat :=
  match file with
  | none => RETURN_ERROR
  | some content =>
    if (sscanf [.lld] content).1 ≠ 1 then RETURN_ERROR
    else ((argInt (sscanf [.lld] content).2 0 0 : Int) : Rat) / UNIT_CONVERSION

/-- The function `get_cpu_temperature`. -/
def get_cpu_temperature (UNIT_CONVERSION : Rat) (file : Option (List Char)) : Rat :=
  read_value UNIT_CONVERSION file

/-- The function `get_battery_voltage`. -/
def get_battery_voltage (UNIT_CONVERSION : Rat) (file : Option (List Char)) : Rat :=
  read_value UNIT_CONVERSION file

/-- The function `get_battery_current`. -/
def get_battery_current (UNIT_CONVERSION : Rat) (file : Option (List Char)) : Rat :=
  read_value UNIT_CONVERSION file

/-- The function `get_cpu_frequency`. -/
def get_cpu_frequency (UNIT_CONVERSION : Rat) (file : Option (List Char)) : Rat :=
  read_value UNIT_CONVERSION file

/-- The function `get_cpu_fan_speed`. -/
def get_cpu_fan_speed (UNIT_CONVERSION : Rat) (file : Option (List Char)) : Rat :=
  read_value UNIT_CONVERSION file * UNIT_CONVERSION

/-- The function `get_gpu_fan_speed`. -/
def get_gpu_fan_speed (UNIT_CONVERSION : Rat) (file : Option (List Char)) : Rat :=
  read_value UNIT_CONVERSION file * UNIT_CONVERSION

/-! ## Process states -/

/-- An entry of the process directory: its name and the content of the status file whose path
is built from the name (`none` when that file cannot be opened). -/
structure DirEntry where
  d_name : List Char
  stat : Option (List Char)
  deriving DecidableEq, Repr

/-- The four counters `get_process_states` writes through its pointer arguments. -/
structure ProcessStates where
  total : Int
  suspended : Int
  ready : Int
  blocked : Int
  deriving DecidableEq, Repr

/-- Format string `"%*d %*s %c"`. -/
def fmtProc : List Dir := [.skipd, .ws, .skips, .ws, .chr]

/-- One iteration of the `readdir` loop of `get_process_states`; `state` is shown as the NUL
character as long as `fscanf` has not stored it. -/
def processEntry (entry : DirEntry) (st : ProcessStates) : ProcessStates :=
  if isdigit (entry.d_name.headD (Char.ofNat 0)) then
    match entry.stat with
    | none => st
    | some content =>
      if (sscanf fmtProc content).1 = 1 then
        if argChr (sscanf fmtProc content).2 0 (Char.ofNat 0) = 'S' then
          { st with total := st.total + 1, suspended := st.suspended + 1 }
        else if argChr (sscanf fmtProc content).2 0 (Char.ofNat 0) = 'R' then
          { st with total := st.total + 1, ready := st.ready + 1 }
        else if argChr (sscanf fmtProc content).2 0 (Char.ofNat 0) = 'D' then
          { st with total := st.total + 1, blocked := st.blocked + 1 }
        else { st with total := st.total + 1 }
      else st
  else st

/-- The function `get_process_states`. `proc_dir` lists the entries `readdir` returns (`none`
when the directory cannot be opened); `out` is the content of the four output variables before
the call and the result their content after it. The `int` counters are unbounded integers. -/
def get_process_states (proc_dir : Option (List DirEntry)) (out : ProcessStates) :
    ProcessStates :=
  match proc_dir with
  | none => out
  | some entries => entries.foldl (fun st entry => processEntry entry st) ⟨0, 0, 0, 0⟩

/-! ## Network traffic -/

/-- Format string `" %63[^:]:"`. -/
def fmtIface : List Dir := [.ws, .set63, .lit ':']

/-- The scanning loop of `get_monitored_interface`; the result is the content of
`detected_iface` after the loop. -/
def detectLoop : List (List Char) → List Char → List Char
  | [], detected_iface => detected_iface
  | line :: rest, detected_iface =>
    if (sscanf fmtIface line).1 ≠ 1 then detectLoop rest detected_iface
    else if argStr (sscanf fmtIface line).2 0 [] ≠ "lo".data then
      (argStr (sscanf fmtIface line).2 0 []).take 63
    else detectLoop rest detected_iface

/-- The function `get_monitored_interface`. `NETWORK_INTERFACE` is the fallback constant of the
absent `metrics.h`, `env` the value of the environment variable `NETWORK_INTERFACE`,
`detected_iface` the content of the static buffer (`[]` when empty) and `dev` the content of
`/proc/net/dev`. The result is the returned name and the static buffer after the call. -/
def get_monitored_interface (NETWORK_INTERFACE : List Char) (env : Option (List Char))
    (detected_iface : List Char) (dev : Option (List (List Char))) : List Char × List Char :=
  if env.isSome ∧ env ≠ some [] then (env.getD [], detected_iface)
  else if detected_iface ≠ [] then (detected_iface, detected_iface)
  else
    match dev with
    | none => (NETWORK_INTERFACE, detected_iface)
    | some lines =>
      let detected := detectLoop (lines.drop 2) detected_iface
      if detected = [] then (NETWORK_INTERFACE, detected) else (detected, detected)

/-- The record `NetworkStats`. -/
structure NetworkStats where
  rx_bytes : Nat
  tx_bytes : Nat
  rx_errors : Nat
  tx_errors : Nat
  dropped_packets : Nat
  deriving DecidableEq, Repr

/-- Format string `" %63[^:]: %llu %*d %llu %llu %*d %*d %*d %*d %llu %*d %llu"`. -/
def fmtNet : List Dir :=
  [.ws, .set63, .lit ':', .ws, .llu, .ws, .skipd, .ws, .llu, .ws, .llu, .ws, .skipd, .ws,
    .skipd, .ws, .skipd, .ws, .skipd, .ws, .llu, .ws, .skipd, .ws, .llu]

/-- The scanning loop of `get_network_traffic`; the state is the five local counters. -/
def scanNetDev (monitored_iface : List Char) : List (List Char) → NetworkStats → NetworkStats
  | [], st => st
  | buffer :: rest, st =>
    if (sscanf fmtNet buffer).1 ≠ 6 then scanNetDev monitored_iface rest st
    else if argStr (sscanf fmtNet buffer).2 0 [] = monitored_iface then
      { rx_bytes := argNum (sscanf fmtNet buffer).2 1 0
        tx_bytes := argNum (sscanf fmtNet buffer).2 4 0
        rx_errors := argNum (sscanf fmtNet buffer).2 2 0
        tx_errors := argNum (sscanf fmtNet buffer).2 5 0
        dropped_packets := argNum (sscanf fmtNet buffer).2 3 0 }
    else scanNetDev monitored_iface rest st

/-- The error sentinel stored in an `unsigned long long` field. -/
def RETURN_ERROR_U64 : Nat := (RETURN_ERROR % (U64 : Int)).toNat

/-- The function `get_network_traffic`. `dev` is the content of `/proc/net/dev` the function
itself reads; `NETWORK_INTERFACE`, `env`, `detected_iface` and `dev_detect` are the inputs of
its call of `get_monitored_interface` (which opens the file on its own). The result is the
returned record and the static buffer of `get_monitored_interface` after the call. -/
def get_network_traffic (NETWORK_INTERFACE : List Char) (env : Option (List Char))
    (detected_iface : List Char) (dev_detect dev : Option (List (List Char))) :
    NetworkStats × List Char :=
  match dev with
  | none =>
    (⟨RETURN_ERROR_U64, RETURN_ERROR_U64, RETURN_ERROR_U64, RETURN_ERROR_U64,
      RETURN_ERROR_U64⟩, detected_iface)
  | some lines =>
    let r := get_monitored_interface NETWORK_INTERFACE env detected_iface dev_detect
    (scanNetDev r.1 (lines.drop 2) ⟨0, 0, 0, 0, 0⟩, r.2)

/-! ## Vocabulary of the statements -/

/-- The true sum of the eight counters. -/
def sumAll (c : CpuTimes) : Nat :=
  c.idle + c.iowait + c.user + c.nice + c.system + c.irq + c.softirq + c.steal

/-- The file cannot be opened, or its content does not start with an integer. -/
def Unreadable (file : Option (List Char)) : Prop :=
  file = none ∨ ∃ content, file = some content ∧ (sscanf [.lld] content).1 ≠ 1

/-- Every character is white space. -/
def allWs (l : List Char) : Bool := l.all isspace

/-- A non-empty run of decimal digits. -/
def allDigits (l : List Char) : Bool := !l.isEmpty && l.all isdigit

/-- The list does not start with a decimal digit. -/
def noDigitHead : List Char → Bool
  | [] => true
  | c :: _ => !isdigit c

/-- The list does not start with white space. -/
def noWsHead : List Char → Bool
  | [] => true
  | c :: _ => !isspace c

/-- A numeric column of a table line: the white space before it and its digits. -/
structure Column where
  sep : List Char
  digits : List Char
  deriving DecidableEq, Repr

/-- The text of a run of columns followed by `tail`. -/
def renderCols (cols : List Column) (tail : List Char) : List Char :=
  cols.foldr (fun c r => c.sep ++ (c.digits ++ r)) tail

/-- The columns are numbers below `2 ^ 64` preceded by white space, which is non-empty for
every column but the first. -/
def wfCols (cols : List Column) : Bool :=
  cols.all (fun c => allWs c.sep && allDigits c.digits && decide (digitsVal c.digits < U64)) &&
    cols.tail.all (fun c => !c.sep.isEmpty)

/-- The directives `" %llu"` (for `true`) and `" %*d"` (for `false`), in sequence. -/
def colFmt (kinds : List Bool) : List Dir :=
  kinds.foldr (fun k r => Dir.ws :: (if k then Dir.llu else Dir.skipd) :: r) []

/-- The values of the columns that `colFmt kinds` converts. -/
def colVals : List Bool → List Column → List Val
  | true :: ks, c :: cs => Val.num (digitsVal c.digits) :: colVals ks cs
  | false :: ks, _ :: cs => colVals ks cs
  | _, _ => []

/-- The value of the `i`-th of a run of columns, counted from 1. -/
def colAt (cols : List Column) (i : Nat) : Nat :=
  digitsVal (cols.getD (i - 1) ⟨[], []⟩).digits

/-- A line of a name-and-counters table such as `/proc/net/dev`: leading white space, a name,
a colon, numeric columns and the rest of the line. -/
structure TableLine where
  pad : List Char
  name : List Char
  cols : List Column
  tail : List Char
  deriving DecidableEq, Repr

/-- The text of the line. -/
def TableLine.text (l : TableLine) : List Char :=
  l.pad ++ (l.name ++ ':' :: renderCols l.cols l.tail)

/-- Well-formedness: the padding is white space; the name is non-empty, at most 63 characters
long, holds no colon and does not start with white space; the columns are well formed and the
rest of the line does not start with a digit. -/
def TableLine.wf (l : TableLine) : Bool :=
  allWs l.pad && !l.name.isEmpty && noWsHead l.name && l.name.all (fun c => decide (c ≠ ':')) &&
    decide (l.name.length ≤ 63) && wfCols l.cols && noDigitHead l.tail

/-- The value of the `i`-th numeric column, counted from 1. -/
def TableLine.col (l : TableLine) (i : Nat) : Nat := colAt l.cols i

/-- The state character `fscanf` stores from the content of a status file, when it returns
`1`. -/
def readState (content : List Char) : Option Char :=
  if (sscanf fmtProc content).1 = 1 then
    some (argChr (sscanf fmtProc content).2 0 (Char.ofNat 0))
  else none

/-- The state character `get_process_states` reads for a directory entry: none when the name
does not start with a digit, the status file cannot be opened, or `fscanf` does not store a
character. -/
def stateOf (entry : DirEntry) : Option Char :=
  if isdigit (entry.d_name.headD (Char.ofNat 0)) then entry.stat.bind readState else none

/-- The state characters read, in directory order. -/
def statesRead (entries : List DirEntry) : List Char := entries.filterMap stateOf

/-- The text of a status file: process id, white space, command name, white space, state
character and the remaining fields. -/
def statText (pid sp1 comm sp2 : List Char) (state : Char) (rest : List Char) : List Char :=
  pid ++ (sp1 ++ (comm ++ (sp2 ++ state :: rest)))

/-- The directive stores nothing. -/
def Dir.plain : Dir → Bool
  | .ws => true
  | .lit _ => true
  | _ => false

/-! ## Arithmetic and the range of the scanned numbers -/

theorem U64_pos : 0 < U64 := by decide

theorem U64_eq : U64 = 18446744073709551616 := by decide

theorem sub64_of_le {a b : Nat} (ha : a < U64) (hb : b ≤ a) : sub64 a b = a - b := by
  unfold sub64
  rw [Nat.mod_eq_of_lt ha, Nat.mod_eq_of_lt (lt_of_le_of_lt hb ha)]
  have : a + (U64 - b) = (a - b) + U64 := by omega
  rw [this, Nat.add_mod_right, Nat.mod_eq_of_lt (by omega)]

theorem sub64_self (a : Nat) : sub64 a a = 0 := by
  simp only [sub64, U64_eq]
  omega

theorem sub64_zero {a : Nat} (ha : a < U64) : sub64 a 0 = a := by
  simp only [sub64, U64_eq] at *
  omega

/-- Exact percentage of `total - available` in `total` lies between 0 and 100. -/
theorem percent_range {t a : Nat} (ht : 0 < t) (ha : a ≤ t) :
    (0 : Rat) ≤ ((t : Rat) - a) / t * 100 ∧ ((t : Rat) - a) / t * 100 ≤ 100 := by
  have ht' : (0 : Rat) < t := by exact_mod_cast ht
  have ha' : (a : Rat) ≤ t := by exact_mod_cast ha
  have ha0 : (0 : Rat) ≤ a := by exact_mod_cast Nat.zero_le a
  constructor
  · apply mul_nonneg _ (by norm_num)
    exact div_nonneg (by linarith) ht'.le
  · have : ((t : Rat) - a) / t ≤ 1 := by
      rw [div_le_one ht']
      linarith
    linarith

theorem total_eq_sum (c : CpuTimes) : total c = sumAll c % U64 := by
  simp only [total, idle_total, non_idle, add64, sumAll, U64_eq]
  omega

theorem totald_lt (prev cur : CpuTimes) : totald prev cur < U64 :=
  Nat.mod_lt _ U64_pos

/-! ## The scanners on well-formed input -/

theorem isdigit_not_isspace {c : Char} (h : isdigit c = true) : isspace c = false := by
  simp only [isdigit, isspace, Bool.and_eq_true, decide_eq_true_eq, Bool.or_eq_false_iff,
    decide_eq_false_iff_not, Bool.and_eq_false_imp] at *
  omega

theorem isdigit_not_sign {c : Char} (h : isdigit c = true) : ¬ (c = '-' ∨ c = '+') := by
  rintro (rfl | rfl) <;> simp [isdigit] at h

theorem skipWs_append {sp rest : List Char} (hsp : allWs sp = true)
    (hrest : noWsHead rest = true) : skipWs (sp ++ rest) = rest := by
  induction sp with
  | nil =>
    cases rest with
    | nil => rfl
    | cons c cs =>
      simp only [noWsHead, Bool.not_eq_true'] at hrest
      simp [skipWs, hrest]
  | cons c cs ih =>
    simp only [allWs, List.all_cons, Bool.and_eq_true] at hsp
    rw [List.cons_append]
    simp only [skipWs, hsp.1, if_true]
    exact ih hsp.2

theorem spanDigits_append {ds rest : List Char} (hds : ds.all isdigit = true)
    (hrest : noDigitHead rest = true) : spanDigits (ds ++ rest) = (ds, rest) := by
  induction ds with
  | nil =>
    cases rest with
    | nil => rfl
    | cons c cs =>
      simp only [noDigitHead, Bool.not_eq_true'] at hrest
      simp [spanDigits, hrest]
  | cons c cs ih =>
    simp only [List.all_cons, Bool.and_eq_true] at hds
    rw [List.cons_append]
    simp only [spanDigits, hds.1, if_true]
    rw [ih hds.2]

theorem spanNonWs_append {w rest : List Char} (hw : w.all (fun c => !isspace c) = true)
    (hrest : noWsHead rest = false) : spanNonWs (w ++ rest) = (w, rest) := by
  induction w with
  | nil =>
    cases rest with
    | nil => simp [noWsHead] at hrest
    | cons c cs =>
      simp only [noWsHead, Bool.not_eq_false'] at hrest
      simp [spanNonWs, hrest]
  | cons c cs ih =>
    simp only [List.all_cons, Bool.and_eq_true, Bool.not_eq_true'] at hw
    rw [List.cons_append]
    simp only [spanNonWs, hw.1]
    rw [ih (by simpa using hw.2)]
    simp

theorem spanNotColon_append : ∀ (n : Nat) (name rest : List Char), name.length ≤ n →
    name.all (fun c => decide (c ≠ ':')) = true →
    spanNotColon n (name ++ ':' :: rest) = (name, ':' :: rest) := by
  intro n
  induction n with
  | zero =>
    intro name rest hlen _
    have : name = [] := List.length_eq_zero.1 (Nat.le_zero.1 hlen)
    subst this
    rfl
  | succ n ih =>
    intro name rest hlen hname
    cases name with
    | nil => simp [spanNotColon]
    | cons c cs =>
      simp only [List.all_cons, Bool.and_eq_true, decide_eq_true_eq] at hname
      rw [List.cons_append]
      simp only [spanNotColon, hname.1, if_false]
      rw [ih cs rest (by simpa using hlen) (by simpa using hname.2)]

theorem spanNotColon_length : ∀ (n : Nat) (cs : List Char),
    (spanNotColon n cs).1.length ≤ n := by
  intro n
  induction n with
  | zero => intro cs; simp [spanNotColon]
  | succ n ih =>
    intro cs
    cases cs with
    | nil => simp [spanNotColon]
    | cons c cs =>
      simp only [spanNotColon]
      split
      · simp
      · simpa using ih cs

theorem scanNumber_digits {sp ds rest : List Char} (hsp : allWs sp = true)
    (hds : allDigits ds = true) (hrest : noDigitHead rest = true) :
    scanNumber (sp ++ (ds ++ rest)) = .ok false ds rest := by
  simp only [allDigits, Bool.and_eq_true, Bool.not_eq_true', List.isEmpty_eq_false] at hds
  obtain ⟨hne, hd⟩ := hds
  cases ds with
  | nil => exact absurd rfl hne
  | cons c cs =>
    have hc : isdigit c = true := by
      simp only [List.all_cons, Bool.and_eq_true] at hd
      exact hd.1
    have hws : noWsHead ((c :: cs) ++ rest) = true := by
      simp [noWsHead, isdigit_not_isspace hc]
    have hsign := isdigit_not_sign hc
    have hm : c ≠ '-' := fun h => hsign (Or.inl h)
    unfold scanNumber
    rw [skipWs_append hsp hws]
    simp only [List.cons_append, if_neg hsign]
    rw [← List.cons_append, spanDigits_append hd hrest]
    simp [hm]

theorem noDigitHead_of_sep {sep rest : List Char} (hne : sep.isEmpty = false)
    (hws : allWs sep = true) : noDigitHead (sep ++ rest) = true := by
  cases sep with
  | nil => simp at hne
  | cons s ss =>
    simp only [allWs, List.all_cons, Bool.and_eq_true] at hws
    cases h : isdigit s with
    | false => simp [noDigitHead, h]
    | true =>
      have := isdigit_not_isspace h
      rw [hws.1] at this
      exact absurd this (by decide)

theorem strtoull_of_lt {ds : List Char} (h : digitsVal ds < U64) :
    strtoull false ds = digitsVal ds := by
  simp only [strtoull]
  rw [if_neg (by omega)]
  simp

/-- Scanning one well-formed column with `" %llu"` or `" %*d"`. -/
theorem scanAux_column (k : Bool) (fmt : List Dir) (c : Column) (rest : List Char)
    (acc : List Val) (hsep : allWs c.sep = true) (hdig : allDigits c.digits = true)
    (hval : digitsVal c.digits < U64) (hrest : noDigitHead rest = true) :
    scanAux (Dir.ws :: (if k then Dir.llu else Dir.skipd) :: fmt) (c.sep ++ (c.digits ++ rest))
      acc = scanAux fmt rest (if k then acc ++ [Val.num (digitsVal c.digits)] else acc) := by
  have hd := hdig
  simp only [allDigits, Bool.and_eq_true, Bool.not_eq_true', List.isEmpty_eq_false] at hd
  have hws : noWsHead (c.digits ++ rest) = true := by
    cases hcd : c.digits with
    | nil => exact absurd hcd hd.1
    | cons d ds =>
      rw [hcd] at hd
      simp only [List.all_cons, Bool.and_eq_true] at hd
      simp [noWsHead, isdigit_not_isspace hd.2.1]
  have hnum : scanNumber (c.digits ++ rest) = .ok false c.digits rest := by
    have := @scanNumber_digits [] c.digits rest (by rfl) hdig hrest
    simpa using this
  cases k with
  | true =>
    simp only [scanAux, step, skipWs_append hsep hws, hnum, if_true, strtoull_of_lt hval]
  | false =>
    simp only [scanAux, step, skipWs_append hsep hws, Bool.false_eq_true, if_false]
    rw [hnum]

theorem wfCols_cons {c : Column} {cs : List Column} (h : wfCols (c :: cs) = true)
    (tail : List Char) (htail : noDigitHead tail = true) :
    allWs c.sep = true ∧ allDigits c.digits = true ∧ digitsVal c.digits < U64 ∧
      wfCols cs = true ∧ noDigitHead (renderCols cs tail) = true := by
  simp only [wfCols, List.all_cons, List.tail_cons, Bool.and_eq_true, decide_eq_true_eq] at h
  obtain ⟨⟨⟨⟨h1, h2⟩, h3⟩, h4⟩, h5⟩ := h
  refine ⟨h1, h2, h3, ?_, ?_⟩
  · simp only [wfCols, Bool.and_eq_true]
    refine ⟨h4, ?_⟩
    cases cs with
    | nil => rfl
    | cons d ds =>
      simp only [List.all_cons, Bool.and_eq_true] at h5
      exact h5.2
  · cases cs with
    | nil => exact htail
    | cons d ds =>
      simp only [List.all_cons, Bool.and_eq_true, Bool.not_eq_true'] at h4 h5
      exact noDigitHead_of_sep h5.1 h4.1.1.1

/-- Scanning a run of well-formed columns with `colFmt kinds`. -/
theorem scanAux_colFmt : ∀ (kinds : List Bool) (cols more : List Column) (fmt : List Dir)
    (tail : List Char) (acc : List Val), cols.length = kinds.length →
    wfCols (cols ++ more) = true → noDigitHead tail = true →
    scanAux (colFmt kinds ++ fmt) (renderCols (cols ++ more) tail) acc =
      scanAux fmt (renderCols more tail) (acc ++ colVals kinds cols) := by
  intro kinds
  induction kinds with
  | nil =>
    intro cols more fmt tail acc hlen _ _
    have : cols = [] := List.length_eq_zero.1 hlen
    subst this
    simp [colFmt, colVals]
  | cons k ks ih =>
    intro cols more fmt tail acc hlen hwf htail
    cases cols with
    | nil => simp at hlen
    | cons c cs =>
      rw [List.cons_append] at hwf
      obtain ⟨h1, h2, h3, h4, h5⟩ := wfCols_cons hwf tail htail
      have hstep := scanAux_column k (colFmt ks ++ fmt) c (renderCols (cs ++ more) tail) acc
        h1 h2 h3 h5
      have hfmt : colFmt (k :: ks) ++ fmt =
          Dir.ws :: (if k then Dir.llu else Dir.skipd) :: (colFmt ks ++ fmt) := by
        simp [colFmt]
      have hin : renderCols (c :: cs ++ more) tail =
          c.sep ++ (c.digits ++ renderCols (cs ++ more) tail) := by
        simp [renderCols]
      rw [hfmt, hin, hstep, ih cs more fmt tail _ (by simpa using hlen) h4 htail]
      cases k <;> simp [colVals]

theorem scanAux_lits (cs : List Char) (fmt : List Dir) (rest : List Char) (acc : List Val) :
    scanAux (cs.map Dir.lit ++ fmt) (cs ++ rest) acc = scanAux fmt rest acc := by
  induction cs with
  | nil => rfl
  | cons c cs ih =>
    simp only [List.map_cons, List.cons_append, scanAux, step, if_true]
    exact ih

/-- Directives that store nothing leave the count and the stored values as they are, once a
value has been stored. -/
theorem scanAux_plain (fmt : List Dir) : ∀ (inp : List Char) (acc : List Val),
    fmt.all Dir.plain = true → acc ≠ [] →
    scanAux fmt inp acc = ((acc.length : Int), acc) := by
  induction fmt with
  | nil => intro inp acc _ _; rfl
  | cons d ds ih =>
    intro inp acc hp hacc
    simp only [List.all_cons, Bool.and_eq_true] at hp
    cases d with
    | ws => simp only [scanAux, step]; exact ih _ _ hp.2 hacc
    | lit c =>
      cases inp with
      | nil => simp [scanAux, step, hacc]
      | cons x xs =>
        simp only [scanAux, step]
        split_ifs
        · exact ih _ _ hp.2 hacc
        · rfl
    | llu => simp [Dir.plain] at hp
    | lld => simp [Dir.plain] at hp
    | skipd => simp [Dir.plain] at hp
    | skips => simp [Dir.plain] at hp
    | chr => simp [Dir.plain] at hp
    | set63 => simp [Dir.plain] at hp

/-- The name part of a well-formed line is scanned by `" %63[^:]:"`. -/
theorem scanAux_name (l : TableLine) (hwf : l.wf = true) (fmt : List Dir) :
    scanAux (Dir.ws :: Dir.set63 :: Dir.lit ':' :: fmt) l.text [] =
      scanAux fmt (renderCols l.cols l.tail) [Val.str l.name] := by
  simp only [TableLine.wf, Bool.and_eq_true, Bool.not_eq_true', decide_eq_true_eq] at hwf
  obtain ⟨⟨⟨⟨⟨⟨hpad, hne⟩, hhead⟩, hcolon⟩, hlen⟩, _⟩, _⟩ := hwf
  cases hname : l.name with
  | nil => simp [hname] at hne
  | cons c cs =>
    have hws : noWsHead (l.name ++ ':' :: renderCols l.cols l.tail) = true := by
      rw [hname] at hhead ⊢
      simpa [noWsHead] using hhead
    have hspan := spanNotColon_append 63 l.name (renderCols l.cols l.tail) hlen hcolon
    simp only [TableLine.text, scanAux, step, skipWs_append hpad hws]
    rw [hname] at hspan ⊢
    rw [List.cons_append] at hspan ⊢
    simp only [step, hspan]
    simp [scanAux, step]

theorem fmtNet_eq : fmtNet = Dir.ws :: Dir.set63 :: Dir.lit ':' ::
    (colFmt [true, false, true, true, false, false, false, false, true, false, true] ++ []) := by
  rfl

theorem fmtIface_eq : fmtIface = Dir.ws :: Dir.set63 :: Dir.lit ':' :: [] := rfl

theorem fmtCpu_eq : fmtCpu = "cpu".data.map Dir.lit ++
    (colFmt [true, true, true, true, true, true, true, true] ++ []) := by
  rfl

theorem fmtMemTotal_eq : fmtMemTotal = "MemTotal:".data.map Dir.lit ++
    (colFmt [true] ++ [Dir.ws, Dir.lit 'k', Dir.lit 'B']) := by
  rfl

theorem fmtMemAvailable_eq : fmtMemAvailable = "MemAvailable:".data.map Dir.lit ++
    (colFmt [true] ++ [Dir.ws, Dir.lit 'k', Dir.lit 'B']) := by
  rfl

/-- The interface line parser of `get_monitored_interface` on a well-formed line. -/
theorem sscanf_fmtIface_wf (l : TableLine) (hwf : l.wf = true) :
    sscanf fmtIface l.text = (1, [Val.str l.name]) := by
  rw [sscanf, fmtIface_eq, scanAux_name l hwf]
  rfl

/-- When `" %63[^:]:"` converts a name, the name is non-empty and at most 63 characters. -/
theorem sscanf_fmtIface_name (b : List Char) (h : (sscanf fmtIface b).1 = 1) :
    argStr (sscanf fmtIface b).2 0 [] ≠ [] ∧ (argStr (sscanf fmtIface b).2 0 []).length ≤ 63 := by
  simp only [sscanf, fmtIface, scanAux, step] at h ⊢
  cases hs : skipWs b with
  | nil => simp [hs, step] at h
  | cons c cs =>
    simp only [hs, step] at h ⊢
    by_cases he : (spanNotColon 63 (c :: cs)).1 = []
    · simp [he] at h
    · simp only [he, if_false]
      have hl := spanNotColon_length 63 (c :: cs)
      cases hr : (spanNotColon 63 (c :: cs)).2 with
      | nil => simp [step, argStr, he, hl]
      | cons d ds =>
        simp only [step]
        split_ifs <;> simp [argStr, he, hl, scanAux]

/-- The line parser of `get_network_traffic` on a well-formed line of at least 11 columns:
the six stored values are the name and the columns 1, 3, 4, 9 and 11. -/
theorem sscanf_fmtNet_wf (l : TableLine) (hwf : l.wf = true) (hlen : 11 ≤ l.cols.length) :
    sscanf fmtNet l.text = (6, [Val.str l.name, Val.num (l.col 1), Val.num (l.col 3),
      Val.num (l.col 4), Val.num (l.col 9), Val.num (l.col 11)]) := by
  have hw := hwf
  simp only [TableLine.wf, Bool.and_eq_true] at hw
  obtain ⟨⟨_, hcols⟩, htail⟩ := hw
  rw [sscanf, fmtNet_eq, scanAux_name l hwf]
  match hc : l.cols, hlen with
  | c1 :: c2 :: c3 :: c4 :: c5 :: c6 :: c7 :: c8 :: c9 :: c10 :: c11 :: more, _ =>
    have happ : c1 :: c2 :: c3 :: c4 :: c5 :: c6 :: c7 :: c8 :: c9 :: c10 :: c11 :: more =
        [c1, c2, c3, c4, c5, c6, c7, c8, c9, c10, c11] ++ more := rfl
    rw [hc] at hcols
    rw [happ] at hcols ⊢
    rw [scanAux_colFmt _ _ more [] l.tail _ (by rfl) hcols htail]
    simp [scanAux, colVals, TableLine.col, colAt, hc]

/-- The aggregate line `cpu` followed by at least eight well-formed columns is parsed into
its first eight columns. -/
theorem sscanf_cpu_wf (cols : List Column) (tail : List Char) (hwf : wfCols cols = true)
    (htail : noDigitHead tail = true) (hlen : 8 ≤ cols.length) :
    sscanf_cpu ("cpu".data ++ renderCols cols tail) =
      (8, ⟨colAt cols 1, colAt cols 2, colAt cols 3, colAt cols 4, colAt cols 5, colAt cols 6,
        colAt cols 7, colAt cols 8⟩) := by
  match cols, hlen with
  | c1 :: c2 :: c3 :: c4 :: c5 :: c6 :: c7 :: c8 :: more, _ =>
    have happ : c1 :: c2 :: c3 :: c4 :: c5 :: c6 :: c7 :: c8 :: more =
        [c1, c2, c3, c4, c5, c6, c7, c8] ++ more := rfl
    rw [happ] at hwf
    have hs : sscanf fmtCpu ("cpu".data ++ renderCols ([c1, c2, c3, c4, c5, c6, c7, c8] ++ more)
        tail) = (8, [Val.num (digitsVal c1.digits), Val.num (digitsVal c2.digits),
          Val.num (digitsVal c3.digits), Val.num (digitsVal c4.digits),
          Val.num (digitsVal c5.digits), Val.num (digitsVal c6.digits),
          Val.num (digitsVal c7.digits), Val.num (digitsVal c8.digits)]) := by
      rw [sscanf, fmtCpu_eq, scanAux_lits, scanAux_colFmt _ _ more [] tail _ (by rfl) hwf htail]
      simp [scanAux, colVals]
    rw [happ]
    simp only [sscanf_cpu, hs]
    simp [argNum, colAt]

/-- A `MemTotal:` line with a well-formed number is accepted by the first `sscanf` call. -/
theorem sscanf_fmtMemTotal_wf (c : Column) (tail : List Char) (hwf : wfCols [c] = true)
    (htail : noDigitHead tail = true) :
    sscanf fmtMemTotal ("MemTotal:".data ++ renderCols [c] tail)
      = (1, [Val.num (digitsVal c.digits)]) := by
  have hcol := scanAux_colFmt [true] [c] [] [Dir.ws, Dir.lit 'k', Dir.lit 'B'] tail [] rfl
    hwf htail
  rw [List.append_nil] at hcol
  rw [sscanf, fmtMemTotal_eq, scanAux_lits, hcol]
  exact scanAux_plain _ _ _ (by decide) (by simp [colVals])

/-- A `MemAvailable:` line with a well-formed number is rejected by the first `sscanf` call
and accepted by the second. -/
theorem sscanf_fmtMemAvailable_wf (c : Column) (tail : List Char) (hwf : wfCols [c] = true)
    (htail : noDigitHead tail = true) :
    (sscanf fmtMemTotal ("MemAvailable:".data ++ renderCols [c] tail)).1 ≠ 1 ∧
    sscanf fmtMemAvailable ("MemAvailable:".data ++ renderCols [c] tail)
      = (1, [Val.num (digitsVal c.digits)]) := by
  constructor
  · simp [sscanf, fmtMemTotal, lits, scanAux, step]
  · have hcol := scanAux_colFmt [true] [c] [] [Dir.ws, Dir.lit 'k', Dir.lit 'B'] tail [] rfl
      hwf htail
    rw [List.append_nil] at hcol
    rw [sscanf, fmtMemAvailable_eq, scanAux_lits, hcol]
    exact scanAux_plain _ _ _ (by decide) (by simp [colVals])

/-- Buffers that match neither format leave the state of the scanning loop unchanged. -/
theorem scanMeminfo_skip (rest : List (List Char)) : ∀ (pre : List (List Char))
    (st : Nat × Nat),
    (∀ b ∈ pre, (sscanf fmtMemTotal b).1 ≠ 1 ∧ (sscanf fmtMemAvailable b).1 ≠ 1) →
    scanMeminfo (pre ++ rest) st = scanMeminfo rest st := by
  intro pre
  induction pre with
  | nil => intro st _; rfl
  | cons b bs ih =>
    intro st h
    have hb := h b (List.mem_cons_self _ _)
    rw [List.cons_append]
    simp only [scanMeminfo]
    rw [if_neg hb.1, if_neg hb.2]
    exact ih st (fun x hx => h x (List.mem_cons_of_mem _ hx))

/-- A memory table with one `MemTotal:` line and, later, a `MemAvailable:` line, among
buffers that match neither format: the scanning loop yields the two numbers. -/
theorem scanMeminfo_table (pre mid post : List (List Char)) (ct ca : Column)
    (tailt taila : List Char) (hct : wfCols [ct] = true) (hca : wfCols [ca] = true)
    (htt : noDigitHead tailt = true) (hta : noDigitHead taila = true)
    (hpre : ∀ b ∈ pre, (sscanf fmtMemTotal b).1 ≠ 1 ∧ (sscanf fmtMemAvailable b).1 ≠ 1)
    (hmid : ∀ b ∈ mid, (sscanf fmtMemTotal b).1 ≠ 1 ∧ (sscanf fmtMemAvailable b).1 ≠ 1) :
    scanMeminfo (pre ++ ("MemTotal:".data ++ renderCols [ct] tailt) ::
      (mid ++ ("MemAvailable:".data ++ renderCols [ca] taila) :: post)) (0, 0)
      = (digitsVal ct.digits, digitsVal ca.digits) := by
  have ht := sscanf_fmtMemTotal_wf ct tailt hct htt
  have ha := sscanf_fmtMemAvailable_wf ca taila hca hta
  rw [scanMeminfo_skip _ pre _ hpre]
  simp only [scanMeminfo]
  rw [if_pos (by rw [ht]), scanMeminfo_skip _ mid _ hmid]
  simp only [scanMeminfo]
  rw [if_neg ha.1, if_pos (by rw [ha.2]), ht, ha.2]
  simp [argNum]

/-! ## Claims C1 and C2: usage percentages -/

/-- The guards the percentage functions do have: `get_memory_usage` returns the sentinel when
the scanned total is `0` or the scanned available amount exceeds it, and `get_disk_usage`
returns it when `total == 0`. -/
theorem usage_error_guards (meminfo : List (List Char)) (s : StatVfs) :
    ((scanMeminfo meminfo (0, 0)).1 = 0 ∨
        (scanMeminfo meminfo (0, 0)).2 > (scanMeminfo meminfo (0, 0)).1 →
      get_memory_usage (some meminfo) = RETURN_ERROR) ∧
    (disk_total s = 0 → get_disk_usage (some s) = RETURN_ERROR) := by
  constructor
  · intro h
    simp only [get_memory_usage]
    rw [if_pos (by tauto)]
  · intro h
    simp only [get_disk_usage]
    rw [if_pos h]

/-- What `get_disk_usage` returns when `available > total > 0`: the percentage of the wrapped
difference `2 ^ 64 - (available - total)`. -/
theorem disk_usage_wrapped (s : StatVfs) (ht : 0 < disk_total s)
    (hgt : disk_total s < disk_available s) :
    get_disk_usage (some s) =
      ((2 ^ 64 - (disk_available s - disk_total s) : Nat) : Rat) / (disk_total s : Rat) * 100 := by
  have ha : disk_available s < U64 := Nat.mod_lt _ U64_pos
  have hs : sub64 (disk_total s) (disk_available s)
      = 2 ^ 64 - (disk_available s - disk_total s) := by
    simp only [sub64, U64_eq] at *
    omega
  simp only [get_disk_usage, PERCENTAGE]
  rw [if_neg (by omega), hs]

/-- Claim C2 on the failing input: a file system reporting 1000 blocks, 1001 available blocks
and a fragment size of 4096 has `available > total > 0`, and `get_disk_usage` returns the
percentage of the wrapped difference `2 ^ 64 - 4096`, not the error sentinel. -/
theorem disk_usage_available_gt_total :
    disk_total ⟨1000, 1001, 4096⟩ = 4096000 ∧
    disk_available ⟨1000, 1001, 4096⟩ = 4100096 ∧
    sub64 (disk_total ⟨1000, 1001, 4096⟩) (disk_available ⟨1000, 1001, 4096⟩) = 2 ^ 64 - 4096 ∧
    get_disk_usage (some ⟨1000, 1001, 4096⟩) = ((2 ^ 64 - 4096 : Nat) : Rat) / 4096000 * 100 ∧
    get_disk_usage (some ⟨1000, 1001, 4096⟩) ≠ RETURN_ERROR ∧
    100 < get_disk_usage (some ⟨1000, 1001, 4096⟩) := by
  have ht : disk_total ⟨1000, 1001, 4096⟩ = 4096000 := by decide
  have ha : disk_available ⟨1000, 1001, 4096⟩ = 4100096 := by decide
  have hs : sub64 (disk_total ⟨1000, 1001, 4096⟩) (disk_available ⟨1000, 1001, 4096⟩)
      = 2 ^ 64 - 4096 := by decide
  have hv : get_disk_usage (some ⟨1000, 1001, 4096⟩)
      = ((2 ^ 64 - 4096 : Nat) : Rat) / 4096000 * 100 := by
    simp only [get_disk_usage, PERCENTAGE]
    rw [hs, ht, if_neg (by decide)]
    norm_num
  refine ⟨ht, ha, hs, hv, ?_, ?_⟩ <;> rw [hv] <;> norm_num [RETURN_ERROR]

/-! ## Claims C3, C8 and C10: the CPU delta -/

theorem sub64_cast (a b : Nat) : ((sub64 a b : Nat) : Int) = ((a : Int) - (b : Int)) % 2 ^ 64 := by
  simp only [sub64, U64_eq]
  omega

theorem idle_total_cast (c : CpuTimes) :
    ((idle_total c : Nat) : Int) = ((c.idle : Int) + (c.iowait : Int)) % 2 ^ 64 := by
  simp only [idle_total, add64, U64_eq]
  omega

theorem total_cast (c : CpuTimes) :
    ((total c : Nat) : Int) = (((c.idle : Int) + (c.iowait : Int)) % 2 ^ 64 + (c.user : Int) +
      (c.nice : Int) + (c.system : Int) + (c.irq : Int) + (c.softirq : Int) +
      (c.steal : Int)) % 2 ^ 64 := by
  rw [total_eq_sum]
  simp only [sumAll, U64_eq]
  omega

/-- Value `get_cpu_usage` returns after a successful parse with a non-zero `totald`. -/
theorem get_cpu_usage_of_ne_zero (prev : CpuTimes) (buffer : List Char)
    (rest : List (List Char)) (hparse : (sscanf_cpu buffer).1 = 8)
    (hne : totald prev (sscanf_cpu buffer).2 ≠ 0) :
    get_cpu_usage prev (some (buffer :: rest)) =
      (((sub64 (totald prev (sscanf_cpu buffer).2) (idled prev (sscanf_cpu buffer).2) : Nat)
          : Rat) / (totald prev (sscanf_cpu buffer).2 : Nat) * 100, (sscanf_cpu buffer).2) := by
  simp only [get_cpu_usage]
  rw [if_neg (by rw [hparse]; decide), if_neg hne]

/-- Result of `get_cpu_usage` after a successful parse with `totald == 0`. -/
theorem get_cpu_usage_of_zero (prev : CpuTimes) (buffer : List Char)
    (rest : List (List Char)) (hparse : (sscanf_cpu buffer).1 = 8)
    (h0 : totald prev (sscanf_cpu buffer).2 = 0) :
    get_cpu_usage prev (some (buffer :: rest)) = (((RETURN_ERROR : Int) : Rat), prev) := by
  simp only [get_cpu_usage]
  rw [if_neg (by rw [hparse]; decide), if_pos h0]

/-- Claim C3. Let the `cpu` line parse into the eight counters `cur` and let `prev` be the
stored snapshot. With, in unsigned 64-bit arithmetic, `idle_total = idle + iowait`,
`total = idle_total + user + nice + system + irq + softirq + steal`,
`totald = total - previous_total` (`total_delta`) and
`idled = idle_total - previous_idle_total` (`idle_delta`), all computed from the fields of the
two snapshots: `get_cpu_usage` returns the error sentinel when
`totald == 0`, returns `0` when `totald != 0` and `totald == idled`, and returns `100` when
`totald != 0` and `idled == 0`. -/
theorem cpu_usage_delta_cases (prev cur : CpuTimes) (buffer : List Char)
    (rest : List (List Char)) (idle_total_prev idle_total_cur total_prev total_cur
      total_delta idle_delta : Int)
    (hparse : sscanf_cpu buffer = (8, cur))
    (h_idle_prev : idle_total_prev = ((prev.idle : Int) + (prev.iowait : Int)) % 2 ^ 64)
    (h_idle_cur : idle_total_cur = ((cur.idle : Int) + (cur.iowait : Int)) % 2 ^ 64)
    (h_total_prev : total_prev = (idle_total_prev + (prev.user : Int) + (prev.nice : Int) +
      (prev.system : Int) + (prev.irq : Int) + (prev.softirq : Int) + (prev.steal : Int))
      % 2 ^ 64)
    (h_total_cur : total_cur = (idle_total_cur + (cur.user : Int) + (cur.nice : Int) +
      (cur.system : Int) + (cur.irq : Int) + (cur.softirq : Int) + (cur.steal : Int))
      % 2 ^ 64)
    (h_totald : total_delta = (total_cur - total_prev) % 2 ^ 64)
    (h_idled : idle_delta = (idle_total_cur - idle_total_prev) % 2 ^ 64) :
    (total_delta = 0 → (get_cpu_usage prev (some (buffer :: rest))).1 = RETURN_ERROR) ∧
    (total_delta ≠ 0 → total_delta = idle_delta →
      (get_cpu_usage prev (some (buffer :: rest))).1 = 0) ∧
    (total_delta ≠ 0 → idle_delta = 0 → (get_cpu_usage prev (some (buffer :: rest))).1 = 100) := by
  have hp1 : (sscanf_cpu buffer).1 = 8 := by rw [hparse]
  have hp2 : (sscanf_cpu buffer).2 = cur := by rw [hparse]
  have htd : total_delta = ((totald prev cur : Nat) : Int) := by
    rw [totald, sub64_cast, total_cast, total_cast, h_totald, h_total_cur, h_total_prev,
      h_idle_cur, h_idle_prev]
  have hid : idle_delta = ((idled prev cur : Nat) : Int) := by
    rw [idled, sub64_cast, idle_total_cast, idle_total_cast, h_idled, h_idle_cur, h_idle_prev]
  refine ⟨?_, ?_, ?_⟩
  · intro h0
    have h0' : totald prev (sscanf_cpu buffer).2 = 0 := by
      rw [hp2]; rw [htd] at h0; exact_mod_cast h0
    rw [get_cpu_usage_of_zero prev buffer rest hp1 h0']
  · intro hne heq
    have hne' : totald prev (sscanf_cpu buffer).2 ≠ 0 := by
      rw [hp2]; intro h; apply hne; rw [htd, h]; rfl
    have heq' : totald prev cur = idled prev cur := by
      rw [htd, hid] at heq; exact_mod_cast heq
    rw [get_cpu_usage_of_ne_zero prev buffer rest hp1 hne', hp2, ← heq', sub64_self]
    simp
  · intro hne h0
    have hne' : totald prev (sscanf_cpu buffer).2 ≠ 0 := by
      rw [hp2]; intro h; apply hne; rw [htd, h]; rfl
    have h0' : idled prev cur = 0 := by
      rw [hid] at h0; exact_mod_cast h0
    rw [get_cpu_usage_of_ne_zero prev buffer rest hp1 hne', hp2, h0',
      sub64_zero (totald_lt _ _)]
    have : ((totald prev cur : Nat) : Rat) ≠ 0 := by
      rw [hp2] at hne'; exact_mod_cast hne'
    simp only
    rw [div_self this]
    norm_num

/-- Witness of `cpu_usage_delta_cases`, one call for each case, from the stored snapshot
`10 0 0 100 5 0 0 0`: the same counters again (`totald == 0`) give the error sentinel;
`10 0 0 160 15 0 0 0` (`totald == idled == 70`) gives 0; `20 0 0 100 5 0 0 0`
(`totald == 10`, `idled == 0`) gives 100. -/
theorem cpu_usage_delta_cases_witness :
    (get_cpu_usage ⟨10, 0, 0, 100, 5, 0, 0, 0⟩
      (some ["cpu  10 0 0 100 5 0 0 0 0 0\n".data])).1 = RETURN_ERROR ∧
    (get_cpu_usage ⟨10, 0, 0, 100, 5, 0, 0, 0⟩
      (some ["cpu  10 0 0 160 15 0 0 0 0 0\n".data])).1 = 0 ∧
    (get_cpu_usage ⟨10, 0, 0, 100, 5, 0, 0, 0⟩
      (some ["cpu  20 0 0 100 5 0 0 0 0 0\n".data, "cpu0 20 0 0 100 5 0 0 0 0 0\n".data])).1
      = 100 :=
  ⟨(cpu_usage_delta_cases ⟨10, 0, 0, 100, 5, 0, 0, 0⟩ ⟨10, 0, 0, 100, 5, 0, 0, 0⟩
      "cpu  10 0 0 100 5 0 0 0 0 0\n".data [] 105 105 115 115 0 0
      (by decide) (by decide) (by decide) (by decide) (by decide) (by decide)
      (by decide)).1 rfl,
   (cpu_usage_delta_cases ⟨10, 0, 0, 100, 5, 0, 0, 0⟩ ⟨10, 0, 0, 160, 15, 0, 0, 0⟩
      "cpu  10 0 0 160 15 0 0 0 0 0\n".data [] 105 175 115 185 70 70
      (by decide) (by decide) (by decide) (by decide) (by decide) (by decide)
      (by decide)).2.1 (by decide) rfl,
   (cpu_usage_delta_cases ⟨10, 0, 0, 100, 5, 0, 0, 0⟩ ⟨20, 0, 0, 100, 5, 0, 0, 0⟩
      "cpu  20 0 0 100 5 0 0 0 0 0\n".data ["cpu0 20 0 0 100 5 0 0 0 0 0\n".data]
      105 105 115 125 10 0
      (by decide) (by decide) (by decide) (by decide) (by decide) (by decide)
      (by decide)).2.2 (by decide) rfl⟩

/-- Claim C10. When the `cpu` line parses into the counters `cur`, every counter of `cur` is
at least the stored one, the sum of the eight counters of `cur` fits in 64 bits and
`totald != 0`, then with `T` and `I` the true (unbounded) differences of the totals and of the
idle totals: the 64-bit `totald` and `idled` equal `T` and `I`, `I <= T`, the 64-bit
`totald - idled` equals `T - I` (no subtraction wraps), and `get_cpu_usage` returns
`(T - I) / T * 100`, a value in `[0, 100]`. -/
theorem cpu_usage_monotone_counters (prev cur : CpuTimes) (buffer : List Char)
    (rest : List (List Char)) (hparse : (sscanf_cpu buffer).1 = 8)
    (hcur : (sscanf_cpu buffer).2 = cur)
    (h_user : prev.user ≤ cur.user) (h_nice : prev.nice ≤ cur.nice)
    (h_system : prev.system ≤ cur.system) (h_idle : prev.idle ≤ cur.idle)
    (h_iowait : prev.iowait ≤ cur.iowait) (h_irq : prev.irq ≤ cur.irq)
    (h_softirq : prev.softirq ≤ cur.softirq) (h_steal : prev.steal ≤ cur.steal)
    (hsum : sumAll cur < 2 ^ 64) (hne : totald prev cur ≠ 0) :
    totald prev cur = sumAll cur - sumAll prev ∧
    idled prev cur = (cur.idle + cur.iowait) - (prev.idle + prev.iowait) ∧
    (cur.idle + cur.iowait) - (prev.idle + prev.iowait) ≤ sumAll cur - sumAll prev ∧
    sub64 (totald prev cur) (idled prev cur) =
      (sumAll cur - sumAll prev) - ((cur.idle + cur.iowait) - (prev.idle + prev.iowait)) ∧
    (get_cpu_usage prev (some (buffer :: rest))).1 =
      (((sumAll cur - sumAll prev : Nat) : Rat) -
        (((cur.idle + cur.iowait) - (prev.idle + prev.iowait) : Nat) : Rat)) /
        ((sumAll cur - sumAll prev : Nat) : Rat) * 100 ∧
    0 ≤ (get_cpu_usage prev (some (buffer :: rest))).1 ∧
    (get_cpu_usage prev (some (buffer :: rest))).1 ≤ 100 := by
  have hU : (2 : Nat) ^ 64 = U64 := rfl
  rw [hU] at hsum
  have hle : sumAll prev ≤ sumAll cur := by
    simp only [sumAll]
    omega
  have hT : totald prev cur = sumAll cur - sumAll prev := by
    rw [totald, total_eq_sum, total_eq_sum, Nat.mod_eq_of_lt hsum,
      Nat.mod_eq_of_lt (lt_of_le_of_lt hle hsum), sub64_of_le hsum hle]
  have hci : cur.idle + cur.iowait < U64 := by
    simp only [sumAll] at hsum
    omega
  have hI : idled prev cur = (cur.idle + cur.iowait) - (prev.idle + prev.iowait) := by
    rw [idled, idle_total, idle_total, add64, add64, Nat.mod_eq_of_lt hci,
      Nat.mod_eq_of_lt (by omega), sub64_of_le hci (by omega)]
  have hIT : (cur.idle + cur.iowait) - (prev.idle + prev.iowait) ≤ sumAll cur - sumAll prev := by
    simp only [sumAll]
    omega
  have hTlt : sumAll cur - sumAll prev < U64 := by
    rw [← hT]; exact totald_lt _ _
  have hTpos : 0 < sumAll cur - sumAll prev := by
    rw [← hT]; exact Nat.pos_of_ne_zero hne
  have hsub : sub64 (totald prev cur) (idled prev cur) =
      (sumAll cur - sumAll prev) - ((cur.idle + cur.iowait) - (prev.idle + prev.iowait)) := by
    rw [hT, hI, sub64_of_le hTlt hIT]
  have hval : (get_cpu_usage prev (some (buffer :: rest))).1 =
      (((sumAll cur - sumAll prev : Nat) : Rat) -
        (((cur.idle + cur.iowait) - (prev.idle + prev.iowait) : Nat) : Rat)) /
        ((sumAll cur - sumAll prev : Nat) : Rat) * 100 := by
    rw [get_cpu_usage_of_ne_zero prev buffer rest hparse (by rw [hcur]; exact hne), hcur]
    simp only
    rw [hsub, hT, Nat.cast_sub hIT]
  refine ⟨hT, hI, hIT, hsub, hval, ?_⟩
  rw [hval]
  exact percent_range hTpos hIT

/-- Witness of `cpu_usage_monotone_counters`: from `10 0 0 100 5 0 0 0` to `40 0 0 160 15 0 0 0`
the total advances by 100 and the idle total by 70, so the usage is 30. -/
theorem cpu_usage_monotone_counters_witness :
    (get_cpu_usage ⟨10, 0, 0, 100, 5, 0, 0, 0⟩
      (some ["cpu  40 0 0 160 15 0 0 0 0 0\n".data])).1 = 30 := by
  have hp : sscanf_cpu "cpu  40 0 0 160 15 0 0 0 0 0\n".data
      = (8, ⟨40, 0, 0, 160, 15, 0, 0, 0⟩) := by decide
  have h := cpu_usage_monotone_counters ⟨10, 0, 0, 100, 5, 0, 0, 0⟩ ⟨40, 0, 0, 160, 15, 0, 0, 0⟩
    "cpu  40 0 0 160 15 0 0 0 0 0\n".data [] (by rw [hp]) (by rw [hp])
    (by decide) (by decide) (by decide) (by decide) (by decide) (by decide) (by decide)
    (by decide) (by decide) (by decide)
  rw [h.2.2.2.2.1]
  norm_num [sumAll]

/-- The stored snapshot after a successful parse: the just-read counters when `totald != 0`,
the old snapshot when `totald == 0`. -/
theorem cpu_stored_snapshot (prev : CpuTimes) (buffer : List Char) (rest : List (List Char))
    (hparse : (sscanf_cpu buffer).1 = 8) :
    (totald prev (sscanf_cpu buffer).2 ≠ 0 →
      (get_cpu_usage prev (some (buffer :: rest))).2 = (sscanf_cpu buffer).2) ∧
    (totald prev (sscanf_cpu buffer).2 = 0 →
      (get_cpu_usage prev (some (buffer :: rest))).2 = prev) := by
  constructor
  · intro hne
    rw [get_cpu_usage_of_ne_zero prev buffer rest hparse hne]
  · intro h0
    rw [get_cpu_usage_of_zero prev buffer rest hparse h0]

/-- When no counter has decreased and the sum of the current counters fits in 64 bits,
`totald == 0` forces the two snapshots to be equal. -/
theorem snapshot_eq_of_totald_zero (prev cur : CpuTimes)
    (h_user : prev.user ≤ cur.user) (h_nice : prev.nice ≤ cur.nice)
    (h_system : prev.system ≤ cur.system) (h_idle : prev.idle ≤ cur.idle)
    (h_iowait : prev.iowait ≤ cur.iowait) (h_irq : prev.irq ≤ cur.irq)
    (h_softirq : prev.softirq ≤ cur.softirq) (h_steal : prev.steal ≤ cur.steal)
    (hsum : sumAll cur < 2 ^ 64) (h0 : totald prev cur = 0) : prev = cur := by
  have hU : (2 : Nat) ^ 64 = U64 := rfl
  rw [hU] at hsum
  have hle : sumAll prev ≤ sumAll cur := by
    simp only [sumAll]
    omega
  have hT : totald prev cur = sumAll cur - sumAll prev := by
    rw [totald, total_eq_sum, total_eq_sum, Nat.mod_eq_of_lt hsum,
      Nat.mod_eq_of_lt (lt_of_le_of_lt hle hsum), sub64_of_le hsum hle]
  rw [hT] at h0
  simp only [sumAll] at h0 hle
  cases prev
  cases cur
  simp only [CpuTimes.mk.injEq] at *
  omega

/-- Claim C8 on the failing input: with the stored snapshot `10 0 0 100 5 0 0 0` and the line
`cpu  11 0 0 100 4 0 0 0` (`user` one more, `iowait` one less) the parse succeeds,
`totald == 0`, the call returns the error sentinel and the stored snapshot stays the old one,
which differs from the counters just read. -/
theorem cpu_snapshot_not_replaced :
    sscanf_cpu "cpu  11 0 0 100 4 0 0 0 0 0\n".data = (8, ⟨11, 0, 0, 100, 4, 0, 0, 0⟩) ∧
    totald ⟨10, 0, 0, 100, 5, 0, 0, 0⟩ ⟨11, 0, 0, 100, 4, 0, 0, 0⟩ = 0 ∧
    get_cpu_usage ⟨10, 0, 0, 100, 5, 0, 0, 0⟩ (some ["cpu  11 0 0 100 4 0 0 0 0 0\n".data])
      = (((RETURN_ERROR : Int) : Rat), ⟨10, 0, 0, 100, 5, 0, 0, 0⟩) ∧
    (get_cpu_usage ⟨10, 0, 0, 100, 5, 0, 0, 0⟩
      (some ["cpu  11 0 0 100 4 0 0 0 0 0\n".data])).2 ≠ ⟨11, 0, 0, 100, 4, 0, 0, 0⟩ := by
  have hp : sscanf_cpu "cpu  11 0 0 100 4 0 0 0 0 0\n".data
      = (8, ⟨11, 0, 0, 100, 4, 0, 0, 0⟩) := by decide
  have h0 : totald ⟨10, 0, 0, 100, 5, 0, 0, 0⟩ ⟨11, 0, 0, 100, 4, 0, 0, 0⟩ = 0 := by decide
  have hr := get_cpu_usage_of_zero ⟨10, 0, 0, 100, 5, 0, 0, 0⟩
    "cpu  11 0 0 100 4 0 0 0 0 0\n".data [] (by rw [hp]) (by rw [hp]; exact h0)
  refine ⟨hp, h0, hr, ?_⟩
  rw [hr]
  decide

/-! ## Claim C7: single-value readers -/

theorem read_value_unreadable (UNIT_CONVERSION : Rat) (file : Option (List Char))
    (h : Unreadable file) : read_value UNIT_CONVERSION file = RETURN_ERROR := by
  rcases h with h | ⟨content, h, hc⟩
  · subst h; rfl
  · subst h
    simp only [read_value]
    rw [if_pos hc]

/-- On an unreadable sensor file the four plain readers return the error sentinel, and the
two fan-speed functions return the sentinel multiplied by `UNIT_CONVERSION`, which is the
sentinel itself only when `UNIT_CONVERSION` is 1. -/
theorem single_value_unreadable (UNIT_CONVERSION : Rat) (file : Option (List Char))
    (h : Unreadable file) :
    get_cpu_temperature UNIT_CONVERSION file = RETURN_ERROR ∧
    get_battery_voltage UNIT_CONVERSION file = RETURN_ERROR ∧
    get_battery_current UNIT_CONVERSION file = RETURN_ERROR ∧
    get_cpu_frequency UNIT_CONVERSION file = RETURN_ERROR ∧
    get_cpu_fan_speed UNIT_CONVERSION file = RETURN_ERROR * UNIT_CONVERSION ∧
    get_gpu_fan_speed UNIT_CONVERSION file = RETURN_ERROR * UNIT_CONVERSION ∧
    (get_cpu_fan_speed UNIT_CONVERSION file = RETURN_ERROR ↔ UNIT_CONVERSION = 1) ∧
    (get_gpu_fan_speed UNIT_CONVERSION file = RETURN_ERROR ↔ UNIT_CONVERSION = 1) := by
  have hr := read_value_unreadable UNIT_CONVERSION file h
  have hiff : ((RETURN_ERROR : Int) : Rat) * UNIT_CONVERSION = RETURN_ERROR ↔
      UNIT_CONVERSION = 1 := by
    simp only [RETURN_ERROR]
    constructor
    · intro h1
      push_cast at h1
      linarith
    · intro h1
      rw [h1]
      norm_num
  unfold get_cpu_temperature get_battery_voltage get_battery_current get_cpu_frequency
    get_cpu_fan_speed get_gpu_fan_speed
  rw [hr]
  exact ⟨rfl, rfl, rfl, rfl, rfl, rfl, hiff, hiff⟩

/-- Claim C7 on the failing input: with `UNIT_CONVERSION` 1000, a missing fan-speed file and
a fan-speed file holding `abc` make `get_cpu_fan_speed` and `get_gpu_fan_speed` return
`-1000`, not the error sentinel `-1` that `get_cpu_temperature` returns on the same files. -/
theorem fan_speed_error_scaled :
    get_cpu_fan_speed 1000 none = -1000 ∧ get_gpu_fan_speed 1000 none = -1000 ∧
    get_cpu_fan_speed 1000 (some "abc\n".data) = -1000 ∧
    get_gpu_fan_speed 1000 (some "abc\n".data) = -1000 ∧
    get_cpu_fan_speed 1000 none ≠ RETURN_ERROR ∧
    get_gpu_fan_speed 1000 none ≠ RETURN_ERROR ∧
    get_cpu_temperature 1000 none = RETURN_ERROR ∧
    get_cpu_temperature 1000 (some "abc\n".data) = RETURN_ERROR := by
  have h1 : Unreadable none := Or.inl rfl
  have h2 : Unreadable (some "abc\n".data) := Or.inr ⟨_, rfl, by decide⟩
  have a := single_value_unreadable 1000 none h1
  have b := single_value_unreadable 1000 (some "abc\n".data) h2
  rw [a.2.2.2.2.1, a.2.2.2.2.2.1, b.2.2.2.2.1, b.2.2.2.2.2.1, a.1, b.1]
  norm_num [RETURN_ERROR]

/-! ## Claims C4 and C5: network traffic -/

/-- Buffers that `get_network_traffic` does not accept as a line of `iface` are skipped. -/
theorem scanNetDev_skip (iface : List Char) (rest : List (List Char)) (st : NetworkStats) :
    ∀ pre : List (List Char),
    (∀ b ∈ pre, (sscanf fmtNet b).1 ≠ 6 ∨ argStr (sscanf fmtNet b).2 0 [] ≠ iface) →
    scanNetDev iface (pre ++ rest) st = scanNetDev iface rest st := by
  intro pre
  induction pre with
  | nil => intro _; rfl
  | cons b bs ih =>
    intro h
    have hb := h b (List.mem_cons_self _ _)
    have hbs := ih (fun x hx => h x (List.mem_cons_of_mem _ hx))
    rw [List.cons_append]
    rcases hb with hb | hb
    · simp only [scanNetDev]
      rw [if_pos hb, hbs]
    · by_cases h6 : (sscanf fmtNet b).1 ≠ 6
      · simp only [scanNetDev]
        rw [if_pos h6, hbs]
      · simp only [scanNetDev]
        rw [if_neg h6, if_neg hb, hbs]

/-- Claim C5. In a table whose rows follow two header lines, let `l` be a well-formed line of
at least 11 numeric columns whose name is the monitored interface, preceded only by buffers
that are not accepted as a line of that interface (lines of other interfaces, malformed
lines). Then `get_network_traffic` returns the columns 1, 9, 3, 11 and 4 of `l` as
`(rx_bytes, tx_bytes, rx_errors, tx_errors, dropped_packets)`. -/
theorem network_traffic_first_match (NETWORK_INTERFACE : List Char) (env : Option (List Char))
    (detected_iface : List Char) (dev_detect : Option (List (List Char)))
    (header1 header2 : List Char) (pre post : List (List Char)) (l : TableLine)
    (hwf : l.wf = true) (hlen : 11 ≤ l.cols.length)
    (hname : l.name =
      (get_monitored_interface NETWORK_INTERFACE env detected_iface dev_detect).1)
    (hpre : ∀ b ∈ pre, (sscanf fmtNet b).1 ≠ 6 ∨ argStr (sscanf fmtNet b).2 0 [] ≠ l.name) :
    (get_network_traffic NETWORK_INTERFACE env detected_iface dev_detect
      (some (header1 :: header2 :: (pre ++ l.text :: post)))).1 =
      { rx_bytes := l.col 1, tx_bytes := l.col 9, rx_errors := l.col 3, tx_errors := l.col 11,
        dropped_packets := l.col 4 } := by
  simp only [get_network_traffic, List.drop_succ_cons, List.drop_zero]
  rw [← hname, scanNetDev_skip l.name _ _ pre hpre]
  simp only [scanNetDev, sscanf_fmtNet_wf l hwf hlen]
  simp [argStr, argNum]

/-- Witness of `network_traffic_first_match`: the interface `eth0` with rx=100, tx=50,
rxerr=1, txerr=0, drop=2, listed after the loopback interface. -/
theorem network_traffic_first_match_witness :
    (get_network_traffic "wlan0".data (some "eth0".data) [] none
      (some ["Inter-|   Receive                |  Transmit\n".data,
        " face |bytes packets errs drop fifo frame compressed multicast|bytes packets\n".data,
        "    lo: 900 9 0 0 0 0 0 0 900 9 0 0 0 0 0 0\n".data,
        "  eth0: 100 7 1 2 0 0 0 0 50 3 0 0 0 0 0 0\n".data])).1
      = { rx_bytes := 100, tx_bytes := 50, rx_errors := 1, tx_errors := 0,
          dropped_packets := 2 } :=
  network_traffic_first_match "wlan0".data (some "eth0".data) [] none
    "Inter-|   Receive                |  Transmit\n".data
    " face |bytes packets errs drop fifo frame compressed multicast|bytes packets\n".data
    ["    lo: 900 9 0 0 0 0 0 0 900 9 0 0 0 0 0 0\n".data] []
    { pad := "  ".data, name := "eth0".data,
      cols := [⟨" ".data, "100".data⟩, ⟨" ".data, "7".data⟩, ⟨" ".data, "1".data⟩,
        ⟨" ".data, "2".data⟩, ⟨" ".data, "0".data⟩, ⟨" ".data, "0".data⟩, ⟨" ".data, "0".data⟩,
        ⟨" ".data, "0".data⟩, ⟨" ".data, "50".data⟩, ⟨" ".data, "3".data⟩, ⟨" ".data, "0".data⟩,
        ⟨" ".data, "0".data⟩, ⟨" ".data, "0".data⟩, ⟨" ".data, "0".data⟩, ⟨" ".data, "0".data⟩,
        ⟨" ".data, "0".data⟩],
      tail := "\n".data }
    (by decide) (by decide) (by decide) (by decide)

/-- When no buffer after the two header lines is accepted as a line of the monitored
interface, `get_network_traffic` returns the record of five zeros. -/
theorem network_traffic_absent (NETWORK_INTERFACE : List Char) (env : Option (List Char))
    (detected_iface : List Char) (dev_detect : Option (List (List Char)))
    (lines : List (List Char))
    (habsent : ∀ b ∈ lines.drop 2, (sscanf fmtNet b).1 ≠ 6 ∨ argStr (sscanf fmtNet b).2 0 [] ≠
      (get_monitored_interface NETWORK_INTERFACE env detected_iface dev_detect).1) :
    (get_network_traffic NETWORK_INTERFACE env detected_iface dev_detect (some lines)).1 =
      ⟨0, 0, 0, 0, 0⟩ := by
  have h := scanNetDev_skip _ [] ⟨0, 0, 0, 0, 0⟩ (lines.drop 2) habsent
  simp only [get_network_traffic]
  rw [List.append_nil] at h
  rw [h]
  rfl

/-- Claim C4 on the failing input: with `eth0` monitored and a table that lists only the
loopback interface, `get_network_traffic` returns five zeros, not the error sentinel; the
result equals the one for a table in which `eth0` is present with all counters zero. -/
theorem network_traffic_absent_is_zero :
    (get_network_traffic "wlan0".data (some "eth0".data) [] none
      (some ["Inter-|   Receive                |  Transmit\n".data,
        " face |bytes packets errs drop fifo frame compressed multicast|bytes packets\n".data,
        "    lo: 900 9 0 0 0 0 0 0 900 9 0 0 0 0 0 0\n".data])).1 = ⟨0, 0, 0, 0, 0⟩ ∧
    (get_network_traffic "wlan0".data (some "eth0".data) [] none
      (some ["Inter-|   Receive                |  Transmit\n".data,
        " face |bytes packets errs drop fifo frame compressed multicast|bytes packets\n".data,
        "    lo: 900 9 0 0 0 0 0 0 900 9 0 0 0 0 0 0\n".data])).1 ≠
      ⟨RETURN_ERROR_U64, RETURN_ERROR_U64, RETURN_ERROR_U64, RETURN_ERROR_U64,
        RETURN_ERROR_U64⟩ ∧
    (get_network_traffic "wlan0".data (some "eth0".data) [] none
      (some ["Inter-|   Receive                |  Transmit\n".data,
        " face |bytes packets errs drop fifo frame compressed multicast|bytes packets\n".data,
        "    lo: 900 9 0 0 0 0 0 0 900 9 0 0 0 0 0 0\n".data,
        "  eth0: 0 0 0 0 0 0 0 0 0 0 0 0 0 0 0 0\n".data])).1 = ⟨0, 0, 0, 0, 0⟩ ∧
    (get_network_traffic "wlan0".data (some "eth0".data) [] none none).1 =
      ⟨RETURN_ERROR_U64, RETURN_ERROR_U64, RETURN_ERROR_U64, RETURN_ERROR_U64,
        RETURN_ERROR_U64⟩ := by
  refine ⟨by decide, by decide, by decide, rfl⟩

/-! ## Claim C9: the monitored interface -/

/-- Buffers without a name, or named `lo`, are skipped by the detection loop. -/
theorem detectLoop_skip (rest : List (List Char)) (det : List Char) :
    ∀ pre : List (List Char),
    (∀ b ∈ pre, (sscanf fmtIface b).1 ≠ 1 ∨ argStr (sscanf fmtIface b).2 0 [] = "lo".data) →
    detectLoop (pre ++ rest) det = detectLoop rest det := by
  intro pre
  induction pre with
  | nil => intro _; rfl
  | cons b bs ih =>
    intro h
    have hb := h b (List.mem_cons_self _ _)
    have hbs := ih (fun x hx => h x (List.mem_cons_of_mem _ hx))
    rw [List.cons_append]
    rcases hb with hb | hb
    · simp only [detectLoop]
      rw [if_pos hb, hbs]
    · by_cases h1 : (sscanf fmtIface b).1 ≠ 1
      · simp only [detectLoop]
        rw [if_pos h1, hbs]
      · simp only [detectLoop]
        rw [if_neg h1, if_neg (by rw [hb]; simp), hbs]

/-- Claim C9. The priority of `get_monitored_interface`, for every fallback constant,
override, cache content and interface list. (a) A non-empty override is returned and the cache
is untouched. Without one: (b) a non-empty cache is returned; with an empty cache, the name
that `" %63[^:]:"` reads from the first buffer after the two header lines that has a name
other than `lo` is cached and returned, and that name is `l.name` for a well-formed line `l`;
(c) when the list cannot be opened or no buffer after the header lines has a name other than
`lo`, the fallback constant is returned and the cache stays empty. -/
theorem monitored_interface_priority (NETWORK_INTERFACE : List Char)
    (env : Option (List Char)) (detected_iface : List Char)
    (dev : Option (List (List Char))) :
    (∀ e, env = some e → e ≠ [] →
      get_monitored_interface NETWORK_INTERFACE env detected_iface dev = (e, detected_iface)) ∧
    (env = none ∨ env = some [] → detected_iface ≠ [] →
      get_monitored_interface NETWORK_INTERFACE env detected_iface dev
        = (detected_iface, detected_iface)) ∧
    (env = none ∨ env = some [] → detected_iface = [] →
      ∀ (lines pre post : List (List Char)) (b : List Char), dev = some lines →
      lines.drop 2 = pre ++ b :: post →
      (∀ p ∈ pre, (sscanf fmtIface p).1 ≠ 1 ∨ argStr (sscanf fmtIface p).2 0 [] = "lo".data) →
      (sscanf fmtIface b).1 = 1 → argStr (sscanf fmtIface b).2 0 [] ≠ "lo".data →
      get_monitored_interface NETWORK_INTERFACE env detected_iface dev
        = (argStr (sscanf fmtIface b).2 0 [], argStr (sscanf fmtIface b).2 0 [])) ∧
    (∀ l : TableLine, l.wf = true →
      (sscanf fmtIface l.text).1 = 1 ∧ argStr (sscanf fmtIface l.text).2 0 [] = l.name) ∧
    (env = none ∨ env = some [] → detected_iface = [] →
      (dev = none ∨ ∃ lines, dev = some lines ∧ ∀ p ∈ lines.drop 2,
        (sscanf fmtIface p).1 ≠ 1 ∨ argStr (sscanf fmtIface p).2 0 [] = "lo".data) →
      get_monitored_interface NETWORK_INTERFACE env detected_iface dev
        = (NETWORK_INTERFACE, [])) := by
  have henv : env = none ∨ env = some [] → ¬ (env.isSome ∧ env ≠ some []) := by
    rintro (h | h) <;> subst h <;> simp
  refine ⟨?_, ?_, ?_, ?_, ?_⟩
  · intro e he hne
    subst he
    simp [get_monitored_interface, hne]
  · intro he hdet
    simp only [get_monitored_interface]
    rw [if_neg (henv he), if_pos hdet]
  · intro he hdet lines pre post b hdev hdrop hpre hb hlo
    obtain ⟨hne, hlen⟩ := sscanf_fmtIface_name b hb
    subst hdev
    simp only [get_monitored_interface]
    have hloop : detectLoop (b :: post) detected_iface = argStr (sscanf fmtIface b).2 0 [] := by
      simp only [detectLoop]
      rw [if_neg (by simp [hb]), if_pos hlo, List.take_of_length_le hlen]
    rw [if_neg (henv he), if_neg (by simp [hdet]), hdrop, detectLoop_skip _ _ pre hpre, hloop]
    rw [if_neg hne]
  · intro l hwf
    rw [sscanf_fmtIface_wf l hwf]
    exact ⟨rfl, rfl⟩
  · intro he hdet hdev
    subst hdet
    rcases hdev with hdev | ⟨lines, hdev, hall⟩
    · subst hdev
      simp only [get_monitored_interface]
      rw [if_neg (henv he), if_neg (by simp)]
    · subst hdev
      have h := detectLoop_skip [] [] (lines.drop 2) hall
      rw [List.append_nil] at h
      simp only [get_monitored_interface]
      rw [if_neg (henv he), if_neg (by simp), h]
      simp [detectLoop]

/-- Witness of `monitored_interface_priority`: without an override and with an empty cache,
the list `lo`, `eth0`, `wlan0` makes `eth0` the cached and returned name. -/
theorem monitored_interface_priority_witness :
    get_monitored_interface "wlan0".data none []
      (some ["Inter-|   Receive                |  Transmit\n".data,
        " face |bytes packets errs drop fifo frame compressed multicast|bytes packets\n".data,
        "    lo: 900 9 0 0 0 0 0 0 900 9 0 0 0 0 0 0\n".data,
        "  eth0: 100 7 1 2 0 0 0 0 50 3 0 0 0 0 0 0\n".data,
        " wlan0: 5 1 0 0 0 0 0 0 5 1 0 0 0 0 0 0\n".data]) = ("eth0".data, "eth0".data) :=
  (monitored_interface_priority "wlan0".data none []
      (some ["Inter-|   Receive                |  Transmit\n".data,
        " face |bytes packets errs drop fifo frame compressed multicast|bytes packets\n".data,
        "    lo: 900 9 0 0 0 0 0 0 900 9 0 0 0 0 0 0\n".data,
        "  eth0: 100 7 1 2 0 0 0 0 50 3 0 0 0 0 0 0\n".data,
        " wlan0: 5 1 0 0 0 0 0 0 5 1 0 0 0 0 0 0\n".data])).2.2.1 (Or.inl rfl) rfl _
    ["    lo: 900 9 0 0 0 0 0 0 900 9 0 0 0 0 0 0\n".data]
    [" wlan0: 5 1 0 0 0 0 0 0 5 1 0 0 0 0 0 0\n".data]
    "  eth0: 100 7 1 2 0 0 0 0 50 3 0 0 0 0 0 0\n".data rfl rfl (by decide) (by decide)
    (by decide)

/-! ## Claim C6: process states -/

theorem processEntry_of_none (entry : DirEntry) (st : ProcessStates)
    (h : stateOf entry = none) : processEntry entry st = st := by
  unfold stateOf at h
  unfold processEntry
  split_ifs at h ⊢ with hd
  · cases hs : entry.stat with
    | none => rfl
    | some content =>
      have hr : (sscanf fmtProc content).1 ≠ 1 := by
        intro h1
        simp [hs, readState, h1] at h
      simp only [if_neg hr]
  · rfl

theorem processEntry_of_some (entry : DirEntry) (st : ProcessStates) (state : Char)
    (h : stateOf entry = some state) :
    processEntry entry st =
      ⟨st.total + 1, st.suspended + (if state = 'S' then 1 else 0),
        st.ready + (if state = 'R' then 1 else 0),
        st.blocked + (if state = 'D' then 1 else 0)⟩ := by
  unfold stateOf at h
  unfold processEntry
  split_ifs at h with hd
  cases hs : entry.stat with
  | none => rw [hs] at h; simp at h
  | some content =>
    have hr : (sscanf fmtProc content).1 = 1 ∧
        argChr (sscanf fmtProc content).2 0 (Char.ofNat 0) = state := by
      by_cases h1 : (sscanf fmtProc content).1 = 1
      · simpa [hs, readState, h1] using h
      · simp [hs, readState, h1] at h
    simp only [hd, if_true, hr.1, hr.2]
    by_cases hS : state = 'S'
    · subst hS; simp
    · by_cases hR : state = 'R'
      · subst hR; simp
      · by_cases hD : state = 'D'
        · subst hD; simp
        · simp [hS, hR, hD]

theorem foldl_processEntry (entries : List DirEntry) : ∀ st : ProcessStates,
    entries.foldl (fun st entry => processEntry entry st) st =
      ⟨st.total + (statesRead entries).length,
        st.suspended + (statesRead entries).count 'S',
        st.ready + (statesRead entries).count 'R',
        st.blocked + (statesRead entries).count 'D'⟩ := by
  induction entries with
  | nil => intro st; simp [statesRead]
  | cons e es ih =>
    intro st
    rw [List.foldl_cons, ih]
    cases h : stateOf e with
    | none =>
      rw [processEntry_of_none e st h]
      simp [statesRead, List.filterMap_cons, h]
    | some state =>
      rw [processEntry_of_some e st state h]
      simp only [statesRead, List.filterMap_cons, h, List.length_cons, List.count_cons]
      simp only [ProcessStates.mk.injEq]
      refine ⟨?_, ?_, ?_, ?_⟩
      · push_cast; ring
      · by_cases hc : state = 'S' <;> simp [hc]
        omega
      · by_cases hc : state = 'R' <;> simp [hc]
        omega
      · by_cases hc : state = 'D' <;> simp [hc]
        omega

/-- The state field of a well-formed status text is the character `fscanf` stores. -/
theorem readState_statText (pid sp1 comm sp2 : List Char) (state : Char) (rest : List Char)
    (hpid : allDigits pid = true) (hsp1 : allWs sp1 = true) (hne1 : sp1 ≠ [])
    (hcomm : comm.all (fun c => !isspace c) = true) (hne : comm ≠ [])
    (hsp2 : allWs sp2 = true) (hne2 : sp2 ≠ []) (hstate : isspace state = false) :
    readState (statText pid sp1 comm sp2 state rest) = some state := by
  have h1 : noDigitHead (sp1 ++ (comm ++ (sp2 ++ state :: rest))) = true :=
    noDigitHead_of_sep (by cases sp1 <;> simp_all) hsp1
  have hnum : scanNumber (pid ++ (sp1 ++ (comm ++ (sp2 ++ state :: rest)))) =
      .ok false pid (sp1 ++ (comm ++ (sp2 ++ state :: rest))) := by
    have := @scanNumber_digits [] pid (sp1 ++ (comm ++ (sp2 ++ state :: rest)))
      (by rfl) hpid h1
    simpa using this
  have h2 : noWsHead (comm ++ (sp2 ++ state :: rest)) = true := by
    cases comm with
    | nil => exact absurd rfl hne
    | cons c cs =>
      simp only [List.all_cons, Bool.and_eq_true, Bool.not_eq_true'] at hcomm
      simp [noWsHead, hcomm.1]
  have h3 : noWsHead (sp2 ++ state :: rest) = false := by
    cases sp2 with
    | nil => exact absurd rfl hne2
    | cons c cs =>
      simp only [allWs, List.all_cons, Bool.and_eq_true] at hsp2
      simp [noWsHead, hsp2.1]
  have h4 : noWsHead (state :: rest) = true := by simp [noWsHead, hstate]
  have hskip1 := @skipWs_append sp1 (comm ++ (sp2 ++ state :: rest)) hsp1 h2
  have hspan := @spanNonWs_append comm (sp2 ++ state :: rest) hcomm h3
  have hskip2 := @skipWs_append sp2 (state :: rest) hsp2 h4
  have hskip0 : skipWs (comm ++ (sp2 ++ state :: rest)) = comm ++ (sp2 ++ state :: rest) := by
    have := @skipWs_append [] (comm ++ (sp2 ++ state :: rest)) (by rfl) h2
    simpa using this
  have hs : sscanf fmtProc (statText pid sp1 comm sp2 state rest) = (1, [Val.chr state]) := by
    simp only [sscanf, fmtProc, statText, scanAux, step, hnum, hskip1, hskip0]
    cases hc : comm ++ (sp2 ++ state :: rest) with
    | nil => cases comm <;> simp_all
    | cons c cs =>
      simp only [step]
      rw [← hc, hspan]
      simp [scanAux, step, hskip2]
  simp [readState, hs, argChr]

/-- A command name with white space: `%*s` stops inside the name and `%c` stores a character
of the name, here `C`, so that the process counts in `total` only. -/
theorem readState_comm_with_space :
    readState "41 (Web Content) S 1 41 41 0\n".data = some 'C' := by
  decide

/-- The census over the characters read. With `statesRead entries` the state characters read (entries whose
name starts with a digit, whose status file opens and from which `fscanf` stores a character;
all other entries are skipped), `get_process_states` sets `total` to their number,
`suspended`, `ready` and `blocked` to the numbers of `S`, `R` and `D` among them, so that any
other state counts only in `total`; and the state field of a well-formed status text is the
character read. -/
theorem process_states_census (entries : List DirEntry) (out : ProcessStates) :
    get_process_states (some entries) out =
      ⟨(statesRead entries).length, (statesRead entries).count 'S',
        (statesRead entries).count 'R', (statesRead entries).count 'D'⟩ ∧
    (∀ e ∈ entries, (isdigit (e.d_name.headD (Char.ofNat 0)) = false ∨ e.stat = none ∨
        (∃ content, e.stat = some content ∧ (sscanf fmtProc content).1 ≠ 1)) →
      ∀ st, processEntry e st = st) ∧
    (∀ (pid sp1 comm sp2 : List Char) (state : Char) (rest : List Char),
      allDigits pid = true → allWs sp1 = true → sp1 ≠ [] →
      comm.all (fun c => !isspace c) = true → comm ≠ [] → allWs sp2 = true → sp2 ≠ [] →
      isspace state = false →
      readState (statText pid sp1 comm sp2 state rest) = some state) := by
  refine ⟨?_, ?_, ?_⟩
  · simp only [get_process_states]
    rw [foldl_processEntry]
    simp
  · intro e _ h st
    apply processEntry_of_none
    unfold stateOf
    rcases h with h | h | ⟨content, h, hc⟩
    · rw [if_neg (by rw [h]; decide)]
    · rw [h]; simp
    · rw [h]; simp [readState, hc]
  · intro pid sp1 comm sp2 state rest h1 h2 h3 h4 h5 h6 h7 h8
    exact readState_statText pid sp1 comm sp2 state rest h1 h2 h3 h4 h5 h6 h7 h8

/-- Witness of `process_states_census`: four processes in the states S, R, D, S, next to a
non-numeric entry and a process whose status file is gone, give total 4, suspended 2, ready 1
and blocked 1. -/
theorem process_states_census_witness :
    get_process_states (some [⟨"1".data, some "1 (init) S 0 1 1 0\n".data⟩,
      ⟨"self".data, some "77 (cat) R 1 1 1 0\n".data⟩,
      ⟨"22".data, some "22 (sh) R 1 22 22 0\n".data⟩, ⟨"23".data, none⟩,
      ⟨"30".data, some "30 (kworker) D 2 0 0 0\n".data⟩,
      ⟨"41".data, some "41 (sshd) S 1 41 41 0\n".data⟩]) ⟨7, 7, 7, 7⟩ = ⟨4, 2, 1, 1⟩ := by
  rw [(process_states_census _ _).1]
  decide

/-- Claim C6 on the failing input: four processes whose state fields are S, R, D and S, the
last one with the command name `(Web Content)`. For that one `%*s` stops inside the name and
`%c` stores `C`, so `get_process_states` yields total 4, suspended 1, ready 1, blocked 1: the
sleeping process `41` counts in `total` only. -/
theorem process_state_misread :
    statText "41".data " ".data "(Web Content)".data " ".data 'S' " 1 41 41 0\n".data
      = "41 (Web Content) S 1 41 41 0\n".data ∧
    sscanf fmtProc "41 (Web Content) S 1 41 41 0\n".data = (1, [Val.chr 'C']) ∧
    get_process_states (some [⟨"1".data, some "1 (init) S 0 1 1 0\n".data⟩,
      ⟨"22".data, some "22 (sh) R 1 22 22 0\n".data⟩,
      ⟨"30".data, some "30 (kworker) D 2 0 0 0\n".data⟩,
      ⟨"41".data, some "41 (Web Content) S 1 41 41 0\n".data⟩]) ⟨0, 0, 0, 0⟩
      = ⟨4, 1, 1, 1⟩ ∧
    get_process_states (some [⟨"1".data, some "1 (init) S 0 1 1 0\n".data⟩,
      ⟨"22".data, some "22 (sh) R 1 22 22 0\n".data⟩,
      ⟨"30".data, some "30 (kworker) D 2 0 0 0\n".data⟩,
      ⟨"41".data, some "41 (Web Content) S 1 41 41 0\n".data⟩]) ⟨0, 0, 0, 0⟩
      ≠ ⟨4, 2, 1, 1⟩ := by
  refine ⟨by decide, by decide, by decide, by decide⟩

end Metrics
